import Mathlib

/-!
# Verification of the refine-postgraphile data provider

Shallow embedding of the query/mutation synthesis and response
normalization engine of the refine-postgraphile package
(the feature-complete revision of src/dataProvider/index.ts, plus
utils/generateFilters.ts, utils/generateSorting.ts and
utils/graphql.ts), together with proofs about its behaviour.

JavaScript runtime values are modelled by the inductive `Value`
(numbers as integers; floats do not occur on the verified paths).
Thrown exceptions are modelled with `Except String`; the transport
client is an oracle function, and each dispatcher operation returns the
list of transport requests it issued alongside its result.
-/

namespace RefinePG

/-- A JavaScript runtime value: undefined, null, booleans, numbers
(modelled as integers), strings, arrays and plain objects (ordered
key/value lists with unique keys, mirroring JS object semantics). -/
inductive Value where
  | undef : Value
  | null : Value
  | bool (b : Bool) : Value
  | num (n : Int) : Value
  | str (s : String) : Value
  | arr (elems : List Value) : Value
  | obj (entries : List (String × Value)) : Value

/-- JS truthiness. Arrays and objects are always truthy (even when empty);
0, the empty string, null, undefined and false are falsy. -/
def Value.truthy : Value → Bool
  | .undef => false
  | .null => false
  | .bool b => b
  | .num n => n != 0
  | .str s => s != ""
  | .arr _ => true
  | .obj _ => true

/-- Property read on a JS value that is known not to be null/undefined;
non-objects yield undefined. -/
def Value.getProp (v : Value) (k : String) : Value :=
  match v with
  | .obj entries =>
    match entries.find? (fun kv => kv.1 == k) with
    | some kv => kv.2
    | none => .undef
  | _ => (.undef : Value)

/-- Property read where the receiver may be null/undefined: JS throws a
TypeError in that case. -/
def Value.getPropE (v : Value) (k : String) : Except String Value :=
  match v with
  | .undef => .error "TypeError: cannot read properties of undefined"
  | .null => .error "TypeError: cannot read properties of null"
  | v => .ok (v.getProp k)

/-- JS property assignment on an ordered entry list: an existing key keeps
its position and gets the new value, a new key is appended. -/
def objInsert (k : String) (v : Value) : List (String × Value) → List (String × Value)
  | [] => [(k, v)]
  | kv :: rest => if kv.1 == k then (k, v) :: rest else kv :: objInsert k v rest

/-- JS delete of a key on an ordered entry list. -/
def objDelete (k : String) : List (String × Value) → List (String × Value)
  | [] => []
  | kv :: rest => if kv.1 == k then rest else kv :: objDelete k rest

/-- Whether the object entry list has key k. -/
def hasKey (k : String) (l : List (String × Value)) : Bool :=
  l.any (fun kv => kv.1 == k)

/-- Replay a list of assignments into a fresh object: models building a
JS object by repeated assignment (object literals, spread results). -/
def buildObj (l : List (String × Value)) : List (String × Value) :=
  l.foldl (fun acc kv => objInsert kv.1 kv.2 acc) []

/-- The own-enumerable entries a value contributes under JS object spread:
objects contribute their entries, arrays and strings contribute indexed
entries, primitives contribute nothing. -/
def spreadEntries : Value → List (String × Value)
  | .obj e => e
  | .arr l => (l.enum).map (fun iv => (toString iv.1, iv.2))
  | .str s => (s.toList.enum).map (fun ic => (toString ic.1, .str (String.singleton ic.2)))
  | _ => []

/-- JS spread merge of two values into a fresh object literal. -/
def jsSpread2 (a b : Value) : List (String × Value) :=
  buildObj (spreadEntries a ++ spreadEntries b)

/-! ## ASCII character classes and case mapping

JS regex classes [a-z] and [A-Z], and toUpperCase/toLowerCase restricted
to ASCII, which is all the source exercises. -/

/-- The JS regex class [a-z]. -/
def jsIsLower (c : Char) : Bool :=
  97 ≤ c.toNat && c.toNat ≤ 122

/-- The JS regex class [A-Z]. -/
def jsIsUpper (c : Char) : Bool :=
  65 ≤ c.toNat && c.toNat ≤ 90

/-- ASCII upper-casing of one character, as JS toUpperCase acts on ASCII. -/
def jsUpperChar (c : Char) : Char :=
  if jsIsLower c then Char.ofNat (c.toNat - 32) else c

/-- ASCII lower-casing of one character. -/
def jsLowerChar (c : Char) : Char :=
  if jsIsUpper c then Char.ofNat (c.toNat + 32) else c

/-- JS toUpperCase (ASCII fragment). -/
def jsToUpper (s : String) : String :=
  ⟨s.toList.map jsUpperChar⟩

/-- JS toLowerCase (ASCII fragment). -/
def jsToLower (s : String) : String :=
  ⟨s.toList.map jsLowerChar⟩

theorem char_ofNat_toNat (n : Nat) (h : n < 55296) : (Char.ofNat n).toNat = n := by
  have hv : n.isValidChar := Or.inl h
  simp [Char.ofNat, hv, Char.toNat, Char.ofNatAux, UInt32.toNat]

theorem jsIsLower_bounds (c : Char) (h : jsIsLower c = true) :
    97 ≤ c.toNat ∧ c.toNat ≤ 122 := by
  simpa only [jsIsLower, Bool.and_eq_true, decide_eq_true_eq] using h

theorem jsUpperChar_toNat_of_lower (c : Char) (h : jsIsLower c = true) :
    (jsUpperChar c).toNat = c.toNat - 32 := by
  rw [jsUpperChar, if_pos h]
  have hb := jsIsLower_bounds c h
  exact char_ofNat_toNat _ (by omega)

theorem jsIsLower_jsUpperChar (c : Char) : jsIsLower (jsUpperChar c) = false := by
  by_cases h : jsIsLower c = true
  · have h2 := jsUpperChar_toNat_of_lower c h
    have hb := jsIsLower_bounds c h
    simp only [jsIsLower, h2, Bool.and_eq_false_iff, decide_eq_false_iff_not]
    left; omega
  · rw [jsUpperChar, if_neg h]
    simp only [Bool.not_eq_true] at h
    exact h

theorem jsUpperChar_ne_underscore (c : Char) (h : jsIsLower c = true) :
    jsUpperChar c ≠ '_' := by
  intro he
  have h1 := jsUpperChar_toNat_of_lower c h
  have hb := jsIsLower_bounds c h
  rw [he] at h1
  have h95 : Char.toNat '_' = 95 := by decide
  omega

/-! ## snakeToCamel and convertKeysToCamelCase (utils/graphql.ts) -/

/-- Character-level model of the JS replacement of every occurrence of
an underscore followed by an ASCII lowercase letter by that letter
upper-cased (global regex semantics: the matched pair is consumed and
scanning resumes after it; on no match, scanning advances one character). -/
def snakeToCamelChars : List Char → List Char
  | [] => []
  | [c] => [c]
  | c :: d :: rest2 =>
    if c == '_' && jsIsLower d then jsUpperChar d :: snakeToCamelChars rest2
    else c :: snakeToCamelChars (d :: rest2)

/-- snakeToCamel from utils/graphql.ts. -/
def snakeToCamel (s : String) : String :=
  ⟨snakeToCamelChars s.toList⟩

theorem snakeToCamelChars_pair (c d : Char) (rest2 : List Char)
    (h : (c == '_' && jsIsLower d) = true) :
    snakeToCamelChars (c :: d :: rest2) = jsUpperChar d :: snakeToCamelChars rest2 := by
  rw [snakeToCamelChars, if_pos h]

theorem snakeToCamelChars_nopair (c d : Char) (rest2 : List Char)
    (h : (c == '_' && jsIsLower d) = false) :
    snakeToCamelChars (c :: d :: rest2) = c :: snakeToCamelChars (d :: rest2) := by
  rw [snakeToCamelChars, if_neg (by simp [h])]

/-- A character list with no match of the snake-case pattern: no
underscore immediately followed by an ASCII lowercase letter. -/
def camelClean : List Char → Bool
  | c1 :: c2 :: rest => !(c1 == '_' && jsIsLower c2) && camelClean (c2 :: rest)
  | _ => true

theorem camelClean_cons_cons (c1 c2 : Char) (rest : List Char) :
    camelClean (c1 :: c2 :: rest) = (!(c1 == '_' && jsIsLower c2) && camelClean (c2 :: rest)) :=
  rfl

theorem camelClean_tail (c : Char) (l : List Char) (h : camelClean (c :: l) = true) :
    camelClean l = true := by
  match l with
  | [] => rfl
  | c2 :: rest =>
    rw [camelClean_cons_cons, Bool.and_eq_true] at h
    exact h.2

theorem camelClean_cons_of_head (x : Char) (l : List Char) (h1 : camelClean l = true)
    (h2 : ∀ y t, l = y :: t → (x == '_' && jsIsLower y) = false) :
    camelClean (x :: l) = true := by
  match l with
  | [] => rfl
  | y :: t =>
    rw [camelClean_cons_cons, Bool.and_eq_true]
    refine ⟨?_, h1⟩
    rw [h2 y t rfl]
    rfl

/-- The head of the converted form of a list whose head is not a
lowercase letter is never a lowercase letter. -/
theorem snakeToCamelChars_head_notlower (c : Char) (rest : List Char)
    (hc : jsIsLower c = false) :
    ∀ x t, snakeToCamelChars (c :: rest) = x :: t → jsIsLower x = false := by
  intro x t hx
  match rest with
  | [] =>
    rw [snakeToCamelChars] at hx
    cases hx
    exact hc
  | d :: rest2 =>
    by_cases hcd : (c == '_' && jsIsLower d) = true
    · rw [snakeToCamelChars_pair c d rest2 hcd] at hx
      cases hx
      exact jsIsLower_jsUpperChar d
    · rw [snakeToCamelChars_nopair c d rest2 (by simpa using hcd)] at hx
      cases hx
      exact hc

/-- The converted form has no remaining snake-case match. -/
theorem snakeToCamelChars_clean : ∀ l : List Char, camelClean (snakeToCamelChars l) = true
  | [] => rfl
  | [c] => rfl
  | c :: d :: rest2 => by
    by_cases hcd : (c == '_' && jsIsLower d) = true
    · rw [snakeToCamelChars_pair c d rest2 hcd]
      refine camelClean_cons_of_head _ _ (snakeToCamelChars_clean rest2) ?_
      intro y t _
      have hne : (jsUpperChar d == '_') = false := by
        simp only [beq_eq_false_iff_ne, ne_eq]
        exact jsUpperChar_ne_underscore d (Bool.and_eq_true .. ▸ hcd).2
      rw [hne]
      rfl
    · have hcd' : (c == '_' && jsIsLower d) = false := by simpa using hcd
      rw [snakeToCamelChars_nopair c d rest2 hcd']
      refine camelClean_cons_of_head _ _ (snakeToCamelChars_clean (d :: rest2)) ?_
      intro y t hy
      rcases Bool.and_eq_false_iff.mp hcd' with h1 | h2
      · rw [h1]
        rfl
      · have hny := snakeToCamelChars_head_notlower d rest2 h2 y t hy
        rw [hny]
        simp
  termination_by l => l.length

/-- A clean list is a fixed point of the conversion. -/
theorem snakeToCamelChars_fix : ∀ l : List Char, camelClean l = true → snakeToCamelChars l = l
  | [], _ => rfl
  | [_], _ => rfl
  | c :: d :: rest2, h => by
    rw [camelClean_cons_cons, Bool.and_eq_true] at h
    have hcd : (c == '_' && jsIsLower d) = false := by
      have := h.1
      rwa [Bool.not_eq_eq_eq_not, Bool.not_true] at this
    rw [snakeToCamelChars_nopair c d rest2 hcd,
      snakeToCamelChars_fix (d :: rest2) h.2]

theorem snakeToCamelChars_idem (l : List Char) :
    snakeToCamelChars (snakeToCamelChars l) = snakeToCamelChars l :=
  snakeToCamelChars_fix _ (snakeToCamelChars_clean l)

theorem snakeToCamel_idem (s : String) : snakeToCamel (snakeToCamel s) = snakeToCamel s := by
  simp only [snakeToCamel, String.toList]
  rw [snakeToCamelChars_idem]

/-! ## Object-building lemmas -/

theorem stringBeqComm (a b : String) : (a == b) = (b == a) := by
  by_cases h : a = b
  · subst h
    rfl
  · rw [beq_eq_false_iff_ne.mpr h, beq_eq_false_iff_ne.mpr (Ne.symm h)]

theorem objInsert_append (k : String) (v : Value) :
    ∀ acc : List (String × Value), (acc.map Prod.fst).contains k = false →
      objInsert k v acc = acc ++ [(k, v)]
  | [], _ => rfl
  | kv :: rest, h => by
    simp only [List.map_cons, List.contains_cons, Bool.or_eq_false_iff] at h
    have h1 : (kv.1 == k) = false := by
      rw [stringBeqComm]
      exact h.1
    rw [objInsert, if_neg (by simp [h1]), objInsert_append k v rest h.2]
    rfl

theorem mem_objInsert (k : String) (v : Value) :
    ∀ (acc : List (String × Value)) (x : String × Value),
      x ∈ objInsert k v acc → x = (k, v) ∨ x ∈ acc
  | [], x, h => by simpa [objInsert] using h
  | kv :: rest, x, h => by
    rw [objInsert] at h
    by_cases hk : (kv.1 == k) = true
    · rw [if_pos hk] at h
      rcases List.mem_cons.mp h with h1 | h1
      · exact Or.inl h1
      · exact Or.inr (List.mem_cons_of_mem _ h1)
    · rw [if_neg hk] at h
      rcases List.mem_cons.mp h with h1 | h1
      · exact Or.inr (h1 ▸ List.mem_cons_self _ _)
      · rcases mem_objInsert k v rest x h1 with h2 | h2
        · exact Or.inl h2
        · exact Or.inr (List.mem_cons_of_mem _ h2)

theorem keys_objInsert (k : String) (v : Value) :
    ∀ acc : List (String × Value),
      (objInsert k v acc).map Prod.fst =
        if (acc.map Prod.fst).contains k then acc.map Prod.fst else acc.map Prod.fst ++ [k]
  | [] => rfl
  | kv :: rest => by
    by_cases hk : kv.1 = k
    · subst hk
      rw [objInsert, if_pos (by simp)]
      simp [List.contains_cons]
    · have h1 : (kv.1 == k) = false := beq_eq_false_iff_ne.mpr hk
      have h2 : (k == kv.1) = false := beq_eq_false_iff_ne.mpr (Ne.symm hk)
      rw [objInsert, if_neg (by simp [h1])]
      simp only [List.map_cons, List.contains_cons, h2, Bool.false_or]
      rw [keys_objInsert k v rest]
      by_cases hc : (rest.map Prod.fst).contains k = true
      · rw [hc]
        simp
      · rw [Bool.of_not_eq_true hc]
        simp

theorem nodup_keys_objInsert (k : String) (v : Value) (acc : List (String × Value))
    (h : (acc.map Prod.fst).Nodup) : ((objInsert k v acc).map Prod.fst).Nodup := by
  rw [keys_objInsert]
  by_cases hc : (acc.map Prod.fst).contains k = true
  · rw [hc]
    exact if_pos rfl ▸ h
  · rw [Bool.of_not_eq_true hc]
    simp only [Bool.false_eq_true, if_false, List.nodup_append, List.nodup_cons]
    refine ⟨h, by simp, ?_⟩
    intro a ha hb
    simp only [List.mem_singleton] at hb
    exact hc (List.contains_iff_exists_mem_beq.mpr ⟨a, ha, by simp [hb]⟩)

/-- Generalized fold of repeated assignment starting from an accumulator. -/
def buildObjFrom (acc : List (String × Value)) (l : List (String × Value)) :
    List (String × Value) :=
  l.foldl (fun acc kv => objInsert kv.1 kv.2 acc) acc

theorem buildObj_eq_from (l : List (String × Value)) : buildObj l = buildObjFrom [] l := rfl

theorem buildObjFrom_cons (acc : List (String × Value)) (kv : String × Value)
    (l : List (String × Value)) :
    buildObjFrom acc (kv :: l) = buildObjFrom (objInsert kv.1 kv.2 acc) l := rfl

theorem mem_buildObjFrom :
    ∀ (l acc : List (String × Value)) (x : String × Value),
      x ∈ buildObjFrom acc l → x ∈ acc ∨ x ∈ l
  | [], _, x, h => Or.inl h
  | kv :: rest, acc, x, h => by
    rw [buildObjFrom_cons] at h
    rcases mem_buildObjFrom rest _ x h with h1 | h1
    · rcases mem_objInsert kv.1 kv.2 acc x h1 with h2 | h2
      · exact Or.inr (h2 ▸ List.mem_cons_self _ _)
      · exact Or.inl h2
    · exact Or.inr (List.mem_cons_of_mem _ h1)

theorem mem_buildObj (l : List (String × Value)) (x : String × Value)
    (h : x ∈ buildObj l) : x ∈ l := by
  rcases mem_buildObjFrom l [] x h with h1 | h1
  · simp at h1
  · exact h1

theorem nodup_keys_buildObjFrom :
    ∀ l acc : List (String × Value), (acc.map Prod.fst).Nodup →
      ((buildObjFrom acc l).map Prod.fst).Nodup
  | [], _, h => h
  | kv :: rest, acc, h =>
    nodup_keys_buildObjFrom rest _ (nodup_keys_objInsert kv.1 kv.2 acc h)

theorem nodup_keys_buildObj (l : List (String × Value)) :
    ((buildObj l).map Prod.fst).Nodup :=
  nodup_keys_buildObjFrom l [] (by simp)

theorem buildObjFrom_of_nodup :
    ∀ l acc : List (String × Value), ((acc ++ l).map Prod.fst).Nodup →
      buildObjFrom acc l = acc ++ l
  | [], acc, _ => by simp [buildObjFrom]
  | kv :: rest, acc, h => by
    have hnotin : (acc.map Prod.fst).contains kv.1 = false := by
      simp only [List.map_append, List.map_cons, List.nodup_append, List.nodup_cons] at h
      by_contra hc
      have hc' : (acc.map Prod.fst).contains kv.1 = true := Bool.of_not_eq_false hc
      rw [List.contains_iff_exists_mem_beq] at hc'
      rcases hc' with ⟨a, ha, hab⟩
      have heq : kv.1 = a := by simpa using hab
      subst heq
      exact h.2.2 ha (List.mem_cons_self _ _)
    rw [buildObjFrom_cons, objInsert_append kv.1 kv.2 acc hnotin,
      buildObjFrom_of_nodup rest (acc ++ [(kv.1, kv.2)]) (by simpa using h)]
    simp

theorem buildObj_of_nodup (l : List (String × Value)) (h : (l.map Prod.fst).Nodup) :
    buildObj l = l := by
  rw [buildObj_eq_from, buildObjFrom_of_nodup l [] (by simpa using h)]
  simp

/-! ## convertKeysToCamelCase (utils/graphql.ts)

The JS function returns null/undefined unchanged, maps arrays
recursively, rebuilds plain objects with camel-cased keys by repeated
assignment (so a later key that collides after conversion overwrites in
place), and returns every other value unchanged. -/

mutual

def convertKeysToCamelCase : Value → Value
  | .undef => .undef
  | .null => .null
  | .bool b => .bool b
  | .num n => .num n
  | .str s => .str s
  | .arr l => .arr (convertValuesList l)
  | .obj e => .obj (buildObj (convertEntriesList e))

def convertValuesList : List Value → List Value
  | [] => []
  | v :: rest => convertKeysToCamelCase v :: convertValuesList rest

def convertEntriesList : List (String × Value) → List (String × Value)
  | [] => []
  | (k, v) :: rest => (snakeToCamel k, convertKeysToCamelCase v) :: convertEntriesList rest

end

theorem convertEntriesList_fix :
    ∀ e : List (String × Value),
      (∀ kv ∈ e, snakeToCamel kv.1 = kv.1 ∧ convertKeysToCamelCase kv.2 = kv.2) →
        convertEntriesList e = e
  | [], _ => rfl
  | (k, v) :: rest, h => by
    have hh := h (k, v) (List.mem_cons_self _ _)
    rw [convertEntriesList, hh.1, hh.2,
      convertEntriesList_fix rest (fun kv hkv => h kv (List.mem_cons_of_mem _ hkv))]

mutual

theorem convertKeysToCamelCase_idem :
    ∀ v : Value, convertKeysToCamelCase (convertKeysToCamelCase v) = convertKeysToCamelCase v
  | .undef => rfl
  | .null => rfl
  | .bool _ => rfl
  | .num _ => rfl
  | .str _ => rfl
  | .arr l => by
    rw [convertKeysToCamelCase, convertKeysToCamelCase, convertValuesList_idem l]
  | .obj e => by
    rw [convertKeysToCamelCase, convertKeysToCamelCase]
    have hfix : ∀ kv ∈ buildObj (convertEntriesList e),
        snakeToCamel kv.1 = kv.1 ∧ convertKeysToCamelCase kv.2 = kv.2 := fun kv hkv =>
      convertEntriesList_mem_fix e kv (mem_buildObj _ kv hkv)
    rw [convertEntriesList_fix _ hfix,
      buildObj_of_nodup _ (nodup_keys_buildObj (convertEntriesList e))]

theorem convertValuesList_idem :
    ∀ l : List Value, convertValuesList (convertValuesList l) = convertValuesList l
  | [] => rfl
  | v :: rest => by
    rw [convertValuesList, convertValuesList, convertKeysToCamelCase_idem v,
      convertValuesList_idem rest]

theorem convertEntriesList_mem_fix :
    ∀ (e : List (String × Value)) (kv : String × Value), kv ∈ convertEntriesList e →
      snakeToCamel kv.1 = kv.1 ∧ convertKeysToCamelCase kv.2 = kv.2
  | [], kv, h => by simp [convertEntriesList] at h
  | (k, v) :: rest, kv, h => by
    rw [convertEntriesList] at h
    rcases List.mem_cons.mp h with h1 | h1
    · subst h1
      exact ⟨snakeToCamel_idem k, convertKeysToCamelCase_idem v⟩
    · exact convertEntriesList_mem_fix rest kv h1

end

/-- C10: convertKeysToCamelCase is idempotent: applying it twice to any
JSON-like value (null, undefined, scalars, arrays, plain objects,
recursively) equals applying it once; in particular a key with no
underscore-followed-by-lowercase pattern is left unchanged by
snakeToCamel. -/
theorem C10_convertKeysToCamelCase_idempotent :
    (∀ v : Value, convertKeysToCamelCase (convertKeysToCamelCase v) = convertKeysToCamelCase v) ∧
    (∀ s : String, camelClean s.toList = true → snakeToCamel s = s) := by
  refine ⟨convertKeysToCamelCase_idem, ?_⟩
  intro s h
  rw [snakeToCamel, snakeToCamelChars_fix _ h]
  cases s
  rfl

theorem C10_witness :
    camelClean (String.toList "alreadyCamel") = true ∧
      snakeToCamel "alreadyCamel" = "alreadyCamel" ∧
      convertKeysToCamelCase (convertKeysToCamelCase (Value.obj [("user_id", Value.num 1)])) =
        convertKeysToCamelCase (Value.obj [("user_id", Value.num 1)]) :=
  ⟨by decide, C10_convertKeysToCamelCase_idempotent.2 "alreadyCamel" (by decide),
    C10_convertKeysToCamelCase_idempotent.1 (Value.obj [("user_id", Value.num 1)])⟩

/-! ## The filter compiler (utils/generateFilters.ts, feature-complete
revision in src/unnamed/part_004) -/

/-- Filter policy options (interfaces), with JS-falsy defaults for the
optional booleans. -/
structure FilterOptions where
  allowedOperators : Option (List String) := none
  allowNullInput : Bool := false
  allowEmptyObjectInput : Bool := false
deriving DecidableEq

/-- A Refine CrudFilter: a field filter (field/operator/value) or a
conditional filter (and/or with a list of nested filters). -/
inductive CrudFilter where
  | fieldF (field : String) (operator : String) (value : Value)
  | condF (operator : String) (value : List CrudFilter)

/-- JS template-literal stringification of a value. -/
def jsStringOfValue : Value → String
  | .undef => "undefined"
  | .null => "null"
  | .bool b => if b then "true" else "false"
  | .num n => toString n
  | .str s => s
  | .arr l => String.intercalate "," (jsStringList l)
  | .obj _ => "[object Object]"
where jsStringList : List Value → List String
  | [] => []
  | v :: rest => jsStringOfValue v :: jsStringList rest

/-- Two consecutive underscores somewhere in the character list. -/
def containsDoubleUnderscore : List Char → Bool
  | '_' :: '_' :: _ => true
  | _ :: rest => containsDoubleUnderscore rest
  | [] => false

/-- JS startsWith applied to the single character underscore. -/
def startsWithUnderscore : List Char → Bool
  | '_' :: _ => true
  | _ => false

/-- The characters rejected by the field-name validation regex. -/
def isSuspiciousChar (c : Char) : Bool :=
  c == '<' || c == '>' || c == Char.ofNat 39 || c == '"' || c == '&'

/-- validateFieldName from generateFilters.ts. -/
def validateFieldName (field : String) : Except String Unit :=
  if field == "" then
    .error "Field name must be a non-empty string"
  else if containsDoubleUnderscore field.toList || startsWithUnderscore field.toList then
    .error ("Field name \x27" ++ field ++ "\x27 is not allowed (reserved GraphQL introspection fields)")
  else if field.toList.any isSuspiciousChar then
    .error ("Field name \x27" ++ field ++ "\x27 contains invalid characters")
  else if field.length > 100 then
    .error "Field name is too long (maximum 100 characters)"
  else
    .ok ()

/-- getObjectDepth from generateFilters.ts, fused over entry lists: a
plain-object value recurses one level deeper, an array value counts one
level deeper and stops (getObjectDepth returns immediately on arrays),
anything else contributes the current depth. -/
def getObjectDepthEntries : List (String × Value) → Nat → Nat
  | [], d => d
  | (_, .obj e2) :: rest, d => max (getObjectDepthEntries e2 (d + 1)) (getObjectDepthEntries rest d)
  | (_, .arr _) :: rest, d => max (d + 1) (getObjectDepthEntries rest d)
  | (_, _) :: rest, d => max d (getObjectDepthEntries rest d)

/-- getObjectDepth from generateFilters.ts. -/
def getObjectDepth (v : Value) (d : Nat) : Nat :=
  match v with
  | .obj entries => getObjectDepthEntries entries d
  | _ => d

/-- validateOperatorValue from generateFilters.ts (the operator argument
is unused in the source body; only the value is inspected). -/
def validateOperatorValue (value : Value) : Except String Unit :=
  match value with
  | .arr l =>
    if l.length > 1000 then .error "Array filter values are too large (maximum 1000 items)"
    else .ok ()
  | .str s =>
    if s.length > 10000 then .error "String filter values are too long (maximum 10000 characters)"
    else .ok ()
  | .obj e =>
    if getObjectDepth (.obj e) 0 > 10 then
      .error "Filter object values are too deeply nested (maximum depth 10)"
    else .ok ()
  | _ => .ok ()

/-- The duck-typed field-name check applied to a dynamic value found in a
nested position (JS rejects any non-string, and the empty string). -/
def validateFieldNameDyn (v : Value) : Except String Unit :=
  match v with
  | .str s => validateFieldName s
  | _ => .error "Field name must be a non-empty string"

theorem sizeOf_getProp_lt (e : List (String × Value)) (k : String) :
    sizeOf (Value.getProp (.obj e) k) < 1 + sizeOf e := by
  simp only [Value.getProp]
  cases hf : e.find? (fun kv => kv.1 == k) with
  | none =>
    have h1 : 1 ≤ sizeOf e := by cases e <;> simp_arith
    simpa using h1
  | some kv =>
    have hm := List.mem_of_find?_eq_some hf
    have hlt := List.sizeOf_lt_of_mem hm
    have hkv : sizeOf kv.2 < sizeOf kv := by
      cases kv
      simp_arith
    simp only
    omega

mutual

/-- validateFiltersBasic from generateFilters.ts. -/
def validateFiltersBasic : List CrudFilter → Except String Unit
  | [] => .ok ()
  | f :: rest => do
    validateFilterBasic f
    validateFiltersBasic rest
termination_by l => sizeOf l

/-- One step of validateFiltersBasic on a single filter: check the field
name, check the value, then recurse into object-typed elements of an
array value (duck-typed as filters by the source). -/
def validateFilterBasic : CrudFilter → Except String Unit
  | .fieldF f _ v => do
    validateFieldName f
    validateOperatorValue v
    match v with
    | .arr elems => validateBasicDynList elems
    | _ => .ok ()
  | .condF _ subs => do
    if subs.length > 1000 then
      Except.error "Array filter values are too large (maximum 1000 items)"
    else
      Except.ok ()
    validateBasicSubs subs
termination_by f => sizeOf f

def validateBasicSubs : List CrudFilter → Except String Unit
  | [] => .ok ()
  | f :: rest => do
    validateFilterBasic f
    validateBasicSubs rest
termination_by l => sizeOf l

def validateBasicDynList : List Value → Except String Unit
  | [] => .ok ()
  | v :: rest => do
    match v with
    | .obj e => validateBasicDynObj e
    | _ => .ok ()
    validateBasicDynList rest
termination_by l => sizeOf l

/-- validateFiltersBasic applied to a duck-typed object element of an
array value. -/
def validateBasicDynObj (e : List (String × Value)) : Except String Unit := do
  if hasKey "field" e then validateFieldNameDyn (Value.getProp (.obj e) "field")
  else .ok ()
  if hasKey "operator" e then validateOperatorValue (Value.getProp (.obj e) "value")
  else .ok ()
  match h : Value.getProp (.obj e) "value" with
  | .arr elems => validateBasicDynList elems
  | _ => .ok ()
termination_by sizeOf e
decreasing_by
  have hlt := sizeOf_getProp_lt e "value"
  rw [h] at hlt
  simp only [Value.arr.sizeOf_spec] at hlt
  omega

end

/-- The allowed-operator gate of validateFilters. -/
def checkAllowedOperator (op : String) : Option (List String) → Except String Unit
  | none => .ok ()
  | some allowed =>
    if allowed.contains op then .ok ()
    else .error ("Filter operator \x27" ++ op ++ "\x27 is not allowed. Allowed operators: " ++
      String.intercalate ", " allowed)

/-- The allowed-operator gate applied to a duck-typed operator value
(a non-string operator is never a member of the string allow-list). -/
def checkAllowedOperatorDyn (opv : Value) : Option (List String) → Except String Unit
  | none => .ok ()
  | some allowed =>
    match opv with
    | .str s => checkAllowedOperator s (some allowed)
    | other => .error ("Filter operator \x27" ++ jsStringOfValue other ++
        "\x27 is not allowed. Allowed operators: " ++ String.intercalate ", " allowed)

/-- JS strict equality with null. -/
def isNullValue : Value → Bool
  | .null => true
  | _ => false

/-- JS test for a non-null object (arrays included) without own keys. -/
def isEmptyObjectLike : Value → Bool
  | .obj [] => true
  | .arr [] => true
  | _ => false

mutual

/-- validateFilters from generateFilters.ts (only called with options
present; the source returns immediately otherwise). -/
def validateFiltersOpts : List CrudFilter → FilterOptions → Except String Unit
  | [], _ => .ok ()
  | f :: rest, opts => do
    validateFilterOpts f opts
    validateFiltersOpts rest opts
termination_by l _ => sizeOf l

def validateFilterOpts : CrudFilter → FilterOptions → Except String Unit
  | .fieldF _ op v, opts => do
    checkAllowedOperator op opts.allowedOperators
    if !opts.allowNullInput && isNullValue v then
      Except.error "Null values are not allowed in filter inputs"
    else Except.ok ()
    if !opts.allowEmptyObjectInput && isEmptyObjectLike v then
      Except.error "Empty objects are not allowed in filter inputs"
    else Except.ok ()
    validateOperatorValue v
    match v with
    | .arr elems => validateOptsDynList elems opts
    | _ => .ok ()
  | .condF op subs, opts => do
    checkAllowedOperator op opts.allowedOperators
    if !opts.allowEmptyObjectInput && subs.isEmpty then
      Except.error "Empty objects are not allowed in filter inputs"
    else Except.ok ()
    if subs.length > 1000 then
      Except.error "Array filter values are too large (maximum 1000 items)"
    else Except.ok ()
    validateOptsSubs subs opts
termination_by f _ => sizeOf f

def validateOptsSubs : List CrudFilter → FilterOptions → Except String Unit
  | [], _ => .ok ()
  | f :: rest, opts => do
    validateFilterOpts f opts
    validateOptsSubs rest opts
termination_by l _ => sizeOf l

def validateOptsDynList : List Value → FilterOptions → Except String Unit
  | [], _ => .ok ()
  | v :: rest, opts => do
    match v with
    | .obj e => validateOptsDynObj e opts
    | _ => .ok ()
    validateOptsDynList rest opts
termination_by l _ => sizeOf l

/-- validateFilters applied to a duck-typed object element of an array
value. -/
def validateOptsDynObj (e : List (String × Value)) (opts : FilterOptions) :
    Except String Unit := do
  if hasKey "operator" e then do
    checkAllowedOperatorDyn (Value.getProp (.obj e) "operator") opts.allowedOperators
    if !opts.allowNullInput && isNullValue (Value.getProp (.obj e) "value") then
      Except.error "Null values are not allowed in filter inputs"
    else Except.ok ()
    if !opts.allowEmptyObjectInput && isEmptyObjectLike (Value.getProp (.obj e) "value") then
      Except.error "Empty objects are not allowed in filter inputs"
    else Except.ok ()
    validateOperatorValue (Value.getProp (.obj e) "value")
  else .ok ()
  match h : Value.getProp (.obj e) "value" with
  | .arr elems => validateOptsDynList elems opts
  | _ => .ok ()
termination_by sizeOf e
decreasing_by
  have hlt := sizeOf_getProp_lt e "value"
  rw [h] at hlt
  simp only [Value.arr.sizeOf_spec] at hlt
  omega

end

/-- The text-matching operators that are dropped on empty values. -/
def textOperators : List String :=
  ["contains", "ncontains", "containss", "ncontainss",
   "startswith", "nstartswith", "endswith", "nendswith"]

/-- The empty values on which text operators are dropped
(empty string, null, undefined — JS strict comparisons). -/
def isEmptyTextValue : Value → Bool
  | .str s => s == ""
  | .null => true
  | .undef => true
  | _ => false

/-- generateFieldFilter from generateFilters.ts: maps one Refine operator
with its value to the nested PostGraphile filter object, or none when a
text operator carries an empty value. String-typed contains/ncontains map
to the substring keys, non-string values map to the structural
containment keys; unknown operators fall back to equality. -/
def generateFieldFilter (operator : String) (value : Value) : Option Value :=
  if textOperators.contains operator && isEmptyTextValue value then none
  else some (match operator with
    | "eq" => .obj [("equalTo", value)]
    | "ne" => .obj [("notEqualTo", value)]
    | "lt" => .obj [("lessThan", value)]
    | "gt" => .obj [("greaterThan", value)]
    | "lte" => .obj [("lessThanOrEqualTo", value)]
    | "gte" => .obj [("greaterThanOrEqualTo", value)]
    | "in" => .obj [("in", value)]
    | "nin" => .obj [("notIn", value)]
    | "contains" =>
      match value with
      | .str _ => .obj [("includes", value)]
      | _ => .obj [("contains", value)]
    | "ncontains" =>
      match value with
      | .str _ => .obj [("notIncludes", value)]
      | _ => .obj [("notContains", value)]
    | "containss" => .obj [("includesInsensitive", value)]
    | "ncontainss" => .obj [("notIncludesInsensitive", value)]
    | "null" => .obj [("isNull", value)]
    | "nnull" => .obj [("isNull", .bool (!value.truthy))]
    | "startswith" => .obj [("startsWith", value)]
    | "nstartswith" => .obj [("notStartsWith", value)]
    | "endswith" => .obj [("endsWith", value)]
    | "nendswith" => .obj [("notEndsWith", value)]
    | "containedBy" => .obj [("containedBy", value)]
    | "overlaps" => .obj [("overlaps", value)]
    | "hasKey" => .obj [("hasKey", value)]
    | _ => .obj [("equalTo", value)])

mutual

/-- generateFilters from generateFilters.ts: validates, then folds the
filter list into a nested filter object; filters on the same field merge
by spread, conditional and/or filters compile their operands separately
and assign the combinator key. -/
def generateFilters (filters : List CrudFilter) (options : Option FilterOptions) :
    Except String Value :=
  if filters.isEmpty then .ok (.obj [])
  else do
    validateFiltersBasic filters
    match options with
    | some opts => validateFiltersOpts filters opts
    | none => Except.ok ()
    let entries ← buildFilterInput filters options []
    .ok (.obj entries)
termination_by (sizeOf filters, 1)

/-- The forEach loop of generateFilters, accumulating assignments into
the filter object. -/
def buildFilterInput : List CrudFilter → Option FilterOptions →
    List (String × Value) → Except String (List (String × Value))
  | [], _, acc => .ok acc
  | .fieldF f op v :: rest, options, acc => do
    validateFieldName f
    match generateFieldFilter op v with
    | some ff =>
      let existing := Value.getProp (.obj acc) f
      if existing.truthy then
        buildFilterInput rest options (objInsert f (.obj (jsSpread2 existing ff)) acc)
      else
        buildFilterInput rest options (objInsert f ff acc)
    | none => buildFilterInput rest options acc
  | .condF op subs :: rest, options, acc =>
    if op == "and" || op == "or" then do
      let vals ← mapGenerateFilters subs options
      buildFilterInput rest options (objInsert op (.arr vals) acc)
    else
      buildFilterInput rest options acc
termination_by l _ _ => (sizeOf l, 0)

/-- The per-operand map of the and/or branches: each operand is compiled
as a singleton filter list. -/
def mapGenerateFilters : List CrudFilter → Option FilterOptions → Except String (List Value)
  | [], _ => .ok []
  | f :: rest, options => do
    let v ← generateFilters [f] options
    let vs ← mapGenerateFilters rest options
    .ok (v :: vs)
termination_by l _ => (sizeOf l, 2)
decreasing_by
  · cases rest with
    | nil =>
      apply Prod.Lex.right
      omega
    | cons g rs =>
      have h1 : 1 ≤ sizeOf rs := by cases rs <;> simp_arith
      apply Prod.Lex.left
      simp only [List.cons.sizeOf_spec, List.nil.sizeOf_spec]
      omega
  · apply Prod.Lex.left
    simp only [List.cons.sizeOf_spec]
    omega

end


theorem hasKey_nil (k : String) : hasKey k [] = false := rfl

theorem hasKey_objInsert (k k' : String) (v : Value) :
    ∀ acc : List (String × Value),
      hasKey k (objInsert k' v acc) = ((k' == k) || hasKey k acc)
  | [] => by simp [objInsert, hasKey]
  | kv :: rest => by
    by_cases hk : (kv.1 == k') = true
    · have heq : kv.1 = k' := by simpa using hk
      subst heq
      rw [objInsert, if_pos (by simp)]
      simp only [hasKey, List.any_cons]
      cases h1 : (kv.1 == k) <;> simp
    · rw [objInsert, if_neg hk]
      simp only [hasKey, List.any_cons]
      have hrec := hasKey_objInsert k k' v rest
      simp only [hasKey] at hrec
      rw [hrec]
      cases h1 : (kv.1 == k) <;> cases h2 : (k' == k) <;> simp

theorem hasKey_objInsert_ne (k k' : String) (v : Value) (acc : List (String × Value))
    (h : (k' == k) = false) : hasKey k (objInsert k' v acc) = hasKey k acc := by
  rw [hasKey_objInsert, h, Bool.false_or]

theorem hasKey_buildObjFrom (k : String) :
    ∀ (l acc : List (String × Value)),
      hasKey k (buildObjFrom acc l) = (hasKey k acc || hasKey k l)
  | [], acc => by simp [buildObjFrom, hasKey]
  | kv :: rest, acc => by
    rw [buildObjFrom_cons, hasKey_buildObjFrom k rest, hasKey_objInsert]
    simp only [hasKey, List.any_cons]
    cases h1 : (kv.1 == k) <;> cases h2 : acc.any (fun kv => kv.1 == k) <;> simp

theorem hasKey_buildObj (k : String) (l : List (String × Value)) :
    hasKey k (buildObj l) = hasKey k l := by
  rw [buildObj_eq_from, hasKey_buildObjFrom]
  rfl

theorem hasKey_append (k : String) (l1 l2 : List (String × Value)) :
    hasKey k (l1 ++ l2) = (hasKey k l1 || hasKey k l2) := by
  simp [hasKey]

/-- A text operator with an empty value is dropped by generateFieldFilter. -/
theorem generateFieldFilter_drop (op : String) (v : Value)
    (h1 : textOperators.contains op = true) (h2 : isEmptyTextValue v = true) :
    generateFieldFilter op v = none := by
  rw [generateFieldFilter.eq_def, if_pos (by rw [h1, h2]; rfl)]

example : generateFilters [CrudFilter.fieldF "name" "contains" (Value.str "")] none =
    Except.ok (Value.obj []) := by
  simp +decide [generateFilters, buildFilterInput, validateFiltersBasic, validateFilterBasic,
    validateFieldName, validateOperatorValue, generateFieldFilter, textOperators,
    isEmptyTextValue, containsDoubleUnderscore, startsWithUnderscore, isSuspiciousChar]
  rfl

example : generateFilters
    [CrudFilter.fieldF "price" "gt" (Value.num 100),
     CrudFilter.fieldF "price" "lt" (Value.num 500)] none =
    Except.ok (Value.obj [("price",
      Value.obj [("greaterThan", Value.num 100), ("lessThan", Value.num 500)])]) := by
  simp +decide [generateFilters, buildFilterInput, mapGenerateFilters, validateFiltersBasic,
    validateFilterBasic, validateBasicSubs, validateFieldName, validateOperatorValue,
    generateFieldFilter, textOperators, isEmptyTextValue, containsDoubleUnderscore,
    startsWithUnderscore, isSuspiciousChar, Value.getProp, Value.truthy, jsSpread2,
    spreadEntries, buildObj, objInsert, List.find?, List.foldl]
  rfl

example : generateFilters
    [CrudFilter.condF "or" [CrudFilter.fieldF "a" "eq" (Value.num 1),
       CrudFilter.fieldF "b" "eq" (Value.num 2)]] none =
    Except.ok (Value.obj [("or", Value.arr
      [Value.obj [("a", Value.obj [("equalTo", Value.num 1)])],
       Value.obj [("b", Value.obj [("equalTo", Value.num 2)])]])]) := by
  simp +decide [generateFilters, buildFilterInput, mapGenerateFilters, validateFiltersBasic,
    validateFilterBasic, validateBasicSubs, validateFieldName, validateOperatorValue,
    generateFieldFilter, textOperators, isEmptyTextValue, containsDoubleUnderscore,
    startsWithUnderscore, isSuspiciousChar, Value.getProp, Value.truthy, jsSpread2,
    spreadEntries, buildObj, objInsert, List.find?, List.foldl]
  rfl

example : generateFilters [CrudFilter.fieldF "name" "contains" (Value.str "John")] none =
    Except.ok (Value.obj [("name", Value.obj [("includes", Value.str "John")])]) := by
  simp +decide [generateFilters, buildFilterInput, mapGenerateFilters, validateFiltersBasic,
    validateFilterBasic, validateBasicSubs, validateFieldName, validateOperatorValue,
    generateFieldFilter, textOperators, isEmptyTextValue, containsDoubleUnderscore,
    startsWithUnderscore, isSuspiciousChar, Value.getProp, Value.truthy, jsSpread2,
    spreadEntries, buildObj, objInsert, List.find?, List.foldl]
  rfl


theorem exceptBindError {α β : Type} (e : String) (f : α → Except String β) :
    (Except.error e >>= f) = Except.error e := rfl

theorem exceptBindOk {α β : Type} (a : α) (f : α → Except String β) :
    (Except.ok a >>= f) = f a := rfl

/-- If every filter on field f in the list is a text operator with an
empty value, the forEach loop never creates an entry for f. -/
theorem buildFilterInput_no_key (f : String) :
    ∀ (fs : List CrudFilter) (options : Option FilterOptions) (acc out : List (String × Value)),
      (f == "and") = false → (f == "or") = false →
      (∀ g op v, CrudFilter.fieldF g op v ∈ fs → g = f →
        textOperators.contains op = true ∧ isEmptyTextValue v = true) →
      hasKey f acc = false →
      buildFilterInput fs options acc = .ok out →
      hasKey f out = false
  | [], options, acc, out, _, _, _, hacc, hok => by
    simp only [buildFilterInput] at hok
    cases hok
    exact hacc
  | .fieldF g op v :: rest, options, acc, out, hand, hor, hall, hacc, hok => by
    simp only [buildFilterInput] at hok
    have hrest : ∀ g' op' v', CrudFilter.fieldF g' op' v' ∈ rest → g' = f →
        textOperators.contains op' = true ∧ isEmptyTextValue v' = true :=
      fun g' op' v' hm => hall g' op' v' (List.mem_cons_of_mem _ hm)
    cases hv : validateFieldName g with
    | error e =>
      rw [hv, exceptBindError] at hok
      cases hok
    | ok u =>
      cases u
      rw [hv, exceptBindOk] at hok
      by_cases hg : g = f
      · have hd := hall g op v (List.mem_cons_self _ _) hg
        simp only [generateFieldFilter_drop op v hd.1 hd.2] at hok
        exact buildFilterInput_no_key f rest options acc out hand hor hrest hacc hok
      · have hgf : (g == f) = false := beq_eq_false_iff_ne.mpr hg
        cases hff : generateFieldFilter op v with
        | none =>
          simp only [hff] at hok
          exact buildFilterInput_no_key f rest options acc out hand hor hrest hacc hok
        | some ff =>
          simp only [hff] at hok
          by_cases ht : (Value.getProp (.obj acc) g).truthy = true
          · rw [if_pos ht] at hok
            exact buildFilterInput_no_key f rest options _ out hand hor hrest
              (by rw [hasKey_objInsert_ne f g _ acc hgf]; exact hacc) hok
          · rw [if_neg ht] at hok
            exact buildFilterInput_no_key f rest options _ out hand hor hrest
              (by rw [hasKey_objInsert_ne f g _ acc hgf]; exact hacc) hok
  | .condF op subs :: rest, options, acc, out, hand, hor, hall, hacc, hok => by
    simp only [buildFilterInput] at hok
    have hrest : ∀ g' op' v', CrudFilter.fieldF g' op' v' ∈ rest → g' = f →
        textOperators.contains op' = true ∧ isEmptyTextValue v' = true :=
      fun g' op' v' hm => hall g' op' v' (List.mem_cons_of_mem _ hm)
    by_cases hco : (op == "and" || op == "or") = true
    · rw [if_pos hco] at hok
      cases hmv : mapGenerateFilters subs options with
      | error e =>
        rw [hmv, exceptBindError] at hok
        cases hok
      | ok vals =>
        rw [hmv, exceptBindOk] at hok
        have hne : (op == f) = false := by
          have hop : op = "and" ∨ op = "or" := by
            rcases Bool.or_eq_true_iff.mp hco with h | h
            · exact Or.inl (by simpa using h)
            · exact Or.inr (by simpa using h)
          rcases hop with h | h <;> subst h
          · rw [stringBeqComm]
            exact hand
          · rw [stringBeqComm]
            exact hor
        exact buildFilterInput_no_key f rest options _ out hand hor hrest
          (by rw [hasKey_objInsert_ne f op _ acc hne]; exact hacc) hok
    · rw [if_neg hco] at hok
      exact buildFilterInput_no_key f rest options acc out hand hor hrest hacc hok

/-- C3: a field filter with a text-matching operator (contains,
ncontains, containss, ncontainss, startswith, nstartswith, endswith,
nendswith) and an empty value (empty string, null, undefined) produces
no per-field object, and generateFilters omits such a field entirely
from the compiled filter object (whenever every filter on that field is
of that shape and the field is not a combinator key). -/
theorem C3_empty_text_filter_omitted :
    (∀ (op : String) (v : Value), textOperators.contains op = true →
      isEmptyTextValue v = true → generateFieldFilter op v = none) ∧
    (∀ (f : String) (fs : List CrudFilter) (options : Option FilterOptions)
        (out : List (String × Value)),
      f ≠ "and" → f ≠ "or" →
      (∀ g op v, CrudFilter.fieldF g op v ∈ fs → g = f →
        textOperators.contains op = true ∧ isEmptyTextValue v = true) →
      generateFilters fs options = .ok (.obj out) →
      hasKey f out = false) := by
  refine ⟨generateFieldFilter_drop, ?_⟩
  intro f fs options out hand hor hall hok
  cases fs with
  | nil =>
    simp only [generateFilters, List.isEmpty_nil, if_true] at hok
    cases hok
    rfl
  | cons f1 rest =>
    simp only [generateFilters, List.isEmpty_cons] at hok
    rw [if_neg (by decide)] at hok
    cases options with
    | none =>
      dsimp only at hok
      cases hvb : validateFiltersBasic (f1 :: rest) with
      | error e =>
        rw [hvb, exceptBindError] at hok
        cases hok
      | ok u =>
        cases u
        rw [hvb, exceptBindOk, exceptBindOk] at hok
        cases hbf : buildFilterInput (f1 :: rest) none [] with
        | error e =>
          rw [hbf, exceptBindError] at hok
          cases hok
        | ok entries =>
          rw [hbf, exceptBindOk] at hok
          have hout : out = entries := by
            have h1 : Value.obj entries = Value.obj out := by injection hok
            injection h1 with h2
            exact h2.symm
          rw [hout]
          exact buildFilterInput_no_key f (f1 :: rest) none [] entries
            (beq_eq_false_iff_ne.mpr hand) (beq_eq_false_iff_ne.mpr hor) hall rfl hbf
    | some opts =>
      dsimp only at hok
      cases hvb : validateFiltersBasic (f1 :: rest) with
      | error e =>
        rw [hvb, exceptBindError] at hok
        cases hok
      | ok u =>
        cases u
        rw [hvb, exceptBindOk] at hok
        cases hvo : validateFiltersOpts (f1 :: rest) opts with
        | error e =>
          rw [hvo, exceptBindError] at hok
          cases hok
        | ok u2 =>
          cases u2
          rw [hvo, exceptBindOk] at hok
          cases hbf : buildFilterInput (f1 :: rest) (some opts) [] with
          | error e =>
            rw [hbf, exceptBindError] at hok
            cases hok
          | ok entries =>
            rw [hbf, exceptBindOk] at hok
            have hout : out = entries := by
              have h1 : Value.obj entries = Value.obj out := by injection hok
              injection h1 with h2
              exact h2.symm
            rw [hout]
            exact buildFilterInput_no_key f (f1 :: rest) (some opts) [] entries
              (beq_eq_false_iff_ne.mpr hand) (beq_eq_false_iff_ne.mpr hor) hall rfl hbf

theorem C3_witness :
    generateFieldFilter "contains" (Value.str "") = none ∧ hasKey "name" [] = false := by
  refine ⟨C3_empty_text_filter_omitted.1 "contains" (Value.str "") (by decide) (by decide), ?_⟩
  refine C3_empty_text_filter_omitted.2 "name"
    [CrudFilter.fieldF "name" "contains" (Value.str "")] none [] (by decide) (by decide) ?_ ?_
  · intro g op v hmem hg
    simp only [List.mem_singleton] at hmem
    cases hmem
    exact ⟨by decide, by decide⟩
  · simp +decide [generateFilters, buildFilterInput, validateFiltersBasic, validateFilterBasic,
      validateFieldName, validateOperatorValue, generateFieldFilter, textOperators,
      isEmptyTextValue, containsDoubleUnderscore, startsWithUnderscore, isSuspiciousChar]
    rfl


/-- A successful generateFilters run on a non-empty list is exactly a
successful fold of the forEach loop from the empty object. -/
theorem generateFilters_ok_build (fs : List CrudFilter) (options : Option FilterOptions)
    (out : Value) (hne : fs.isEmpty = false)
    (hok : generateFilters fs options = .ok out) :
    ∃ entries, buildFilterInput fs options [] = .ok entries ∧ out = .obj entries := by
  simp only [generateFilters, hne] at hok
  rw [if_neg (by decide)] at hok
  cases options with
  | none =>
    dsimp only at hok
    cases hvb : validateFiltersBasic fs with
    | error e =>
      rw [hvb, exceptBindError] at hok
      cases hok
    | ok u =>
      cases u
      rw [hvb, exceptBindOk, exceptBindOk] at hok
      cases hbf : buildFilterInput fs none [] with
      | error e =>
        rw [hbf, exceptBindError] at hok
        cases hok
      | ok entries =>
        rw [hbf, exceptBindOk] at hok
        refine ⟨entries, rfl, ?_⟩
        injection hok with h1
        exact h1.symm
  | some opts =>
    dsimp only at hok
    cases hvb : validateFiltersBasic fs with
    | error e =>
      rw [hvb, exceptBindError] at hok
      cases hok
    | ok u =>
      cases u
      rw [hvb, exceptBindOk] at hok
      cases hvo : validateFiltersOpts fs opts with
      | error e =>
        rw [hvo, exceptBindError] at hok
        cases hok
      | ok u2 =>
        cases u2
        rw [hvo, exceptBindOk] at hok
        cases hbf : buildFilterInput fs (some opts) [] with
        | error e =>
          rw [hbf, exceptBindError] at hok
          cases hok
        | ok entries =>
          rw [hbf, exceptBindOk] at hok
          refine ⟨entries, rfl, ?_⟩
          injection hok with h1
          exact h1.symm

/-- C4: two field filters on the same field with different operators
merge into a single nested object for that field carrying the spread
union of the two operator objects, in which every key of either operator
object is present; the later filter does not overwrite the earlier one. -/
theorem C4_same_field_filters_merge (f op1 op2 : String) (v1 v2 : Value)
    (options : Option FilterOptions) (o1 o2 : List (String × Value)) (out : Value)
    (h1 : generateFieldFilter op1 v1 = some (.obj o1))
    (h2 : generateFieldFilter op2 v2 = some (.obj o2))
    (hok : generateFilters [.fieldF f op1 v1, .fieldF f op2 v2] options = .ok out) :
    out = .obj [(f, .obj (buildObj (o1 ++ o2)))] ∧
      ∀ k, hasKey k (buildObj (o1 ++ o2)) = (hasKey k o1 || hasKey k o2) := by
  refine ⟨?_, fun k => by rw [hasKey_buildObj, hasKey_append]⟩
  obtain ⟨entries, hbf, hout⟩ :=
    generateFilters_ok_build [.fieldF f op1 v1, .fieldF f op2 v2] options out rfl hok
  subst hout
  simp only [buildFilterInput] at hbf
  cases hv : validateFieldName f with
  | error e =>
    rw [hv, exceptBindError] at hbf
    cases hbf
  | ok u =>
    cases u
    rw [hv, exceptBindOk] at hbf
    simp only [h1] at hbf
    rw [show Value.getProp (Value.obj []) f = Value.undef from rfl] at hbf
    rw [if_neg (by decide)] at hbf
    rw [exceptBindOk] at hbf
    simp only [h2] at hbf
    have hex : Value.getProp (.obj (objInsert f (.obj o1) [])) f = .obj o1 := by
      simp [objInsert, Value.getProp, List.find?]
    rw [hex] at hbf
    rw [if_pos (show (Value.obj o1).truthy = true from rfl)] at hbf
    injection hbf with h3
    rw [← h3]
    simp only [objInsert, beq_self_eq_true, if_true]
    rfl

theorem C4_witness :
    generateFilters [CrudFilter.fieldF "price" "gt" (Value.num 100),
        CrudFilter.fieldF "price" "lt" (Value.num 500)] none =
      Except.ok (Value.obj [("price", Value.obj (buildObj
        ([("greaterThan", Value.num 100)] ++ [("lessThan", Value.num 500)])))]) := by
  have hok : generateFilters [CrudFilter.fieldF "price" "gt" (Value.num 100),
      CrudFilter.fieldF "price" "lt" (Value.num 500)] none =
      Except.ok (Value.obj [("price",
        Value.obj [("greaterThan", Value.num 100), ("lessThan", Value.num 500)])]) := by
    simp +decide [generateFilters, buildFilterInput, validateFiltersBasic, validateFilterBasic,
      validateFieldName, validateOperatorValue, generateFieldFilter, textOperators,
      isEmptyTextValue, containsDoubleUnderscore, startsWithUnderscore, isSuspiciousChar,
      Value.getProp, Value.truthy, jsSpread2, spreadEntries, buildObj, objInsert,
      List.find?, List.foldl]
    rfl
  have h := C4_same_field_filters_merge "price" "gt" "lt" (Value.num 100) (Value.num 500)
    none [("greaterThan", Value.num 100)] [("lessThan", Value.num 500)] _ rfl rfl hok
  rw [hok, h.1]


/-! ## The sort compiler (utils/generateSorting.ts) -/

/-- A Refine sorter: a field name and a direction string. -/
structure CrudSort where
  field : String
  order : String
deriving DecidableEq

/-- Character-level model of the JS replacement of every occurrence of an
ASCII lowercase letter immediately followed by an uppercase letter by
the same pair with an underscore in between (global regex semantics:
the matched pair is consumed). -/
def camelSnakeChars : List Char → List Char
  | [] => []
  | [c] => [c]
  | c :: d :: rest2 =>
    if jsIsLower c && jsIsUpper d then c :: '_' :: d :: camelSnakeChars rest2
    else c :: camelSnakeChars (d :: rest2)

/-- The token produced for one sorter: PRIMARY_KEY for a field equal to
id case-insensitively, otherwise the field converted to upper snake case,
each followed by the upper-cased direction. -/
def sortToken (sorter : CrudSort) : String :=
  if jsToLower sorter.field == "id" then "PRIMARY_KEY_" ++ jsToUpper sorter.order
  else jsToUpper ⟨camelSnakeChars sorter.field.toList⟩ ++ "_" ++ jsToUpper sorter.order

/-- generateSorting from utils/generateSorting.ts. -/
def generateSorting : Option (List CrudSort) → List String
  | none => []
  | some sorters =>
    if sorters.isEmpty then []
    else sorters.map sortToken

/-- Specification-side formulation of the camel-to-snake conversion: an
underscore is inserted between each ASCII lowercase letter and an
immediately following uppercase letter (stated by tracking the previous
character, independently of the consuming regex scan of the source). -/
def specSnakeGo (prev : Char) : List Char → List Char
  | [] => []
  | c :: rest => (if jsIsLower prev && jsIsUpper c then ['_', c] else [c]) ++ specSnakeGo c rest

def specSnakeIns : List Char → List Char
  | [] => []
  | c :: rest => c :: specSnakeGo c rest

theorem jsIsUpper_not_lower (c : Char) (h : jsIsUpper c = true) : jsIsLower c = false := by
  simp only [jsIsUpper, Bool.and_eq_true, decide_eq_true_eq] at h
  simp only [jsIsLower, Bool.and_eq_false_iff, decide_eq_false_iff_not]
  left
  omega

theorem specSnakeGo_of_not_lower (prev : Char) (l : List Char)
    (h : jsIsLower prev = false) : specSnakeGo prev l = specSnakeIns l := by
  cases l with
  | nil => rfl
  | cons c rest =>
    rw [specSnakeGo, specSnakeIns, if_neg (by simp [h])]
    rfl

/-- The consuming regex scan agrees with the insert-between formulation. -/
theorem camelSnakeChars_eq_spec : ∀ l : List Char, camelSnakeChars l = specSnakeIns l
  | [] => rfl
  | [c] => by
    rw [camelSnakeChars, specSnakeIns, specSnakeGo]
  | c :: d :: rest2 => by
    by_cases hcd : (jsIsLower c && jsIsUpper d) = true
    · rw [camelSnakeChars, if_pos hcd, specSnakeIns, specSnakeGo, if_pos hcd]
      have hd : jsIsLower d = false :=
        jsIsUpper_not_lower d (Bool.and_eq_true .. ▸ hcd).2
      rw [camelSnakeChars_eq_spec rest2, specSnakeGo_of_not_lower d rest2 hd]
      rfl
    · have hcd' : (jsIsLower c && jsIsUpper d) = false := by simpa using hcd
      rw [camelSnakeChars, if_neg (by simp [hcd']), camelSnakeChars_eq_spec (d :: rest2),
        specSnakeIns, specSnakeIns, specSnakeGo, if_neg (by simp [hcd'])]
      rfl
  termination_by l => l.length

/-- The per-sorter token stated through the specification-side
formulation of the conversion. -/
def specSortToken (sorter : CrudSort) : String :=
  if jsToLower sorter.field == "id" then "PRIMARY_KEY_" ++ jsToUpper sorter.order
  else jsToUpper ⟨specSnakeIns sorter.field.toList⟩ ++ "_" ++ jsToUpper sorter.order

/-- The token the claim literally describes, following the spec wording:
an underscore inserted before each interior capital (every non-initial
uppercase letter), then the whole upper-cased. -/
def specClaimC8Go : List Char → List Char
  | [] => []
  | c :: rest => (if jsIsUpper c then ['_', c] else [c]) ++ specClaimC8Go rest

def specClaimC8Snake : List Char → List Char
  | [] => []
  | c :: rest => c :: specClaimC8Go rest

def specClaimC8Token (sorter : CrudSort) : String :=
  if jsToLower sorter.field == "id" then "PRIMARY_KEY_" ++ jsToUpper sorter.order
  else jsToUpper ⟨specClaimC8Snake sorter.field.toList⟩ ++ "_" ++ jsToUpper sorter.order

/-- C8 counterexample: for the field userID the code emits USER_ID_ASC
(underscore only between a lowercase letter and a following capital),
while the claim rule (underscore before each interior capital) would
give USER_I_D_ASC. -/
theorem C8_counterexample :
    generateSorting (some [⟨"userID", "asc"⟩]) = ["USER_ID_ASC"] ∧
      specClaimC8Token ⟨"userID", "asc"⟩ = "USER_I_D_ASC" ∧
      generateSorting (some [⟨"userID", "asc"⟩]) ≠ [specClaimC8Token ⟨"userID", "asc"⟩] :=
  ⟨by decide, by decide, by decide⟩

/-- C8 (amended): for every non-empty sorter list generateSorting returns
exactly one token per sorter in input order; a sorter whose field
case-insensitively equals id yields PRIMARY_KEY followed by the
upper-cased direction, and every other field is converted to upper snake
case with an underscore inserted between each lowercase letter and an
immediately following capital, followed by the upper-cased direction. -/
theorem C8_sort_tokens (sorters : List CrudSort) (hne : sorters ≠ []) :
    (generateSorting (some sorters)).length = sorters.length ∧
      generateSorting (some sorters) = sorters.map specSortToken := by
  have hmap : generateSorting (some sorters) = sorters.map sortToken := by
    rw [generateSorting, if_neg (by simpa [List.isEmpty_iff] using hne)]
  have htok : ∀ s : CrudSort, sortToken s = specSortToken s := by
    intro s
    rw [sortToken, specSortToken, camelSnakeChars_eq_spec]
  constructor
  · rw [hmap, List.length_map]
  · rw [hmap, List.map_congr_left (fun s _ => htok s)]

theorem C8_witness :
    (generateSorting (some [⟨"createdAt", "desc"⟩])).length = 1 ∧
      generateSorting (some [⟨"createdAt", "desc"⟩]) =
        List.map specSortToken [⟨"createdAt", "desc"⟩] :=
  C8_sort_tokens [⟨"createdAt", "desc"⟩] (by decide)


/-! ## Data provider configuration (src/dataProvider/index.ts) -/

/-- The two naming conventions of the adapter. -/
inductive NamingConvention where
  | simplified
  | standard
deriving DecidableEq

/-- The data provider configuration surface used by the dispatcher
(headers and retry are consumed only by the transport collaborator). -/
structure Config where
  namingConvention : Option NamingConvention := none
  filterOptions : Option FilterOptions := none
  schemaIntrospection : Bool := false
  timeout : Option Int := none
deriving DecidableEq

/-- The PostGraphile-specific properties of the constructed provider. -/
structure ProviderProps where
  namingConvention : NamingConvention
  supportsConnectionFiltering : Bool
  supportsSimplifyInflection : Bool
deriving DecidableEq

/-- The construction-time part of dataProvider: the timeout validation
(a JS-truthy timeout outside the accepted interval throws) and the
provider properties. -/
def dataProviderInit (config : Config) : Except String ProviderProps :=
  let nc := config.namingConvention.getD .simplified
  let props : ProviderProps :=
    { namingConvention := nc,
      supportsConnectionFiltering := true,
      supportsSimplifyInflection := nc == .simplified }
  match config.timeout with
  | some t =>
    if t != 0 && (t < 1000 || t > 300000) then
      .error "Timeout must be between 1000ms and 300000ms (5 minutes)"
    else .ok props
  | none => .ok props

/-- C9 counterexample: a configured timeout of 0 ms lies outside the
interval [1000, 300000], yet construction succeeds, because the source
guards the range check behind JS truthiness of the timeout value. -/
theorem C9_counterexample :
    ((0 : Int) < 1000 ∨ (300000 : Int) < 0) ∧
      dataProviderInit { timeout := some 0 } =
        .ok ⟨.simplified, true, true⟩ :=
  ⟨Or.inl (by norm_num), rfl⟩

/-- C9 (amended): construction throws the timeout error exactly when a
timeout is configured, is nonzero (JS-truthy), and lies outside
[1000, 300000]; a zero, absent, or in-interval timeout is accepted. -/
theorem C9_timeout_validation (config : Config) :
    dataProviderInit config =
        .error "Timeout must be between 1000ms and 300000ms (5 minutes)" ↔
      ∃ t, config.timeout = some t ∧ t ≠ 0 ∧ (t < 1000 ∨ 300000 < t) := by
  rw [dataProviderInit]
  cases ht : config.timeout with
  | none =>
    simp
  | some t =>
    dsimp only
    by_cases hc : (t != 0 && (t < 1000 || t > 300000 : Bool)) = true
    · rw [if_pos hc]
      simp only [bne_iff_ne, ne_eq, Bool.and_eq_true, Bool.or_eq_true, decide_eq_true_eq] at hc
      simp only [true_iff]
      exact ⟨t, rfl, by simpa using hc.1, hc.2⟩
    · rw [if_neg hc]
      simp only [bne_iff_ne, ne_eq, Bool.and_eq_true, Bool.or_eq_true, decide_eq_true_eq,
        not_and, not_or, not_lt] at hc
      constructor
      · intro h
        cases h
      · rintro ⟨t2, ht2, hne, hout⟩
        injection ht2 with ht2
        subst ht2
        rcases hout with h | h
        · have := (hc hne).1
          omega
        · have := (hc hne).2
          omega

theorem C9_witness :
    dataProviderInit { timeout := some 500 } =
      .error "Timeout must be between 1000ms and 300000ms (5 minutes)" :=
  (C9_timeout_validation { timeout := some 500 }).mpr
    ⟨500, rfl, by decide, Or.inl (by decide)⟩

/-! ## List query variables and pagination (src/dataProvider/index.ts,
buildGetListVariables and buildGetListQuery) -/

/-- The pagination request of a list call. -/
structure Pagination where
  currentPage : Option Int := none
  pageSize : Option Int := none
deriving DecidableEq

/-- The cursor pair a caller may thread through meta from a previous
response. -/
structure CursorMeta where
  next : Option Value := none
  prev : Option Value := none

/-- A caller-supplied GraphQL document: a plain string, a parsed document
node carrying its source body, or any other object (from which the
source extracts the empty string). -/
inductive GqlDoc where
  | strDoc (s : String)
  | nodeDoc (body : String)
  | otherDoc

/-- The operation meta accepted by the dispatcher. -/
structure MetaQ where
  operation : Option String := none
  fields : Option (List String) := none
  gqlQuery : Option GqlDoc := none
  gqlMutation : Option GqlDoc := none
  cursor : Option CursorMeta := none
  customVariables : Option Value := none

/-- The truthy-string test of meta.cursor.next used by
buildGetListVariables. -/
def metaCursorNext (meta : Option MetaQ) : Option String :=
  match meta with
  | some m =>
    match m.cursor with
    | some c =>
      match c.next with
      | some (.str s) => if s == "" then none else some s
      | _ => none
    | none => none
  | none => none

/-- The truthy-string test of meta.cursor.prev used by
buildGetListVariables. -/
def metaCursorPrev (meta : Option MetaQ) : Option String :=
  match meta with
  | some m =>
    match m.cursor with
    | some c =>
      match c.prev with
      | some (.str s) => if s == "" then none else some s
      | _ => none
    | none => none
  | none => none

/-- The pagination phase of buildGetListVariables: first/after for a
forward cursor, before/last (with first deleted) for a backward cursor,
first/offset for a page beyond the first without a cursor, first alone
otherwise. -/
def paginationVars (pagination : Option Pagination) (meta : Option MetaQ) :
    List (String × Value) :=
  match pagination with
  | none => []
  | some p =>
    let currentPage := p.currentPage.getD 1
    let pageSize := p.pageSize.getD 10
    let v := objInsert "first" (.num pageSize) []
    match metaCursorNext meta with
    | some s => objInsert "after" (.str s) v
    | none =>
      match metaCursorPrev meta with
      | some s =>
        objDelete "first" (objInsert "last" (.num pageSize) (objInsert "before" (.str s) v))
      | none =>
        if currentPage > 1 then
          objDelete "before" (objDelete "after"
            (objInsert "offset" (.num ((currentPage - 1) * pageSize)) v))
        else
          objDelete "offset" (objDelete "before" (objDelete "after" v))

/-- buildGetListVariables from src/dataProvider/index.ts: the pagination
phase, then orderBy, then a non-empty compiled filter. -/
def buildGetListVariables (pagination : Option Pagination) (sorters : Option (List CrudSort))
    (filters : Option (List CrudFilter)) (config : Config) (meta : Option MetaQ) :
    Except String (List (String × Value)) := do
  let vars1 : List (String × Value) := paginationVars pagination meta
  let vars2 :=
    match sorters with
    | some l =>
      if l.isEmpty then vars1
      else objInsert "orderBy" (.arr ((generateSorting (some l)).map .str)) vars1
    | none => vars1
  match filters with
  | some l =>
    if l.isEmpty then .ok vars2
    else do
      let filter ← generateFilters l config.filterOptions
      match filter with
      | .obj fe => if fe.isEmpty then .ok vars2 else .ok (objInsert "filter" (.obj fe) vars2)
      | _ => .ok vars2
  | none => .ok vars2

/-- The resolved-offset test of buildGetListQuery: a numeric offset
variable at least 0. -/
def hasOffsetVar (vars : List (String × Value)) : Bool :=
  match Value.getProp (.obj vars) "offset" with
  | .num n => 0 ≤ n
  | _ => false

/-- The resolved-after test of buildGetListQuery: a non-empty string. -/
def hasAfterVar (vars : List (String × Value)) : Bool :=
  match Value.getProp (.obj vars) "after" with
  | .str s => 0 < s.length
  | _ => false

/-- The resolved-before test of buildGetListQuery: a non-empty string. -/
def hasBeforeVar (vars : List (String × Value)) : Bool :=
  match Value.getProp (.obj vars) "before" with
  | .str s => 0 < s.length
  | _ => false

/-- The last-count test of buildGetListQuery: a numeric last variable. -/
def usesLastVar (vars : List (String × Value)) : Bool :=
  match Value.getProp (.obj vars) "last" with
  | .num _ => true
  | _ => false

/-- The pagination/filter/sort argument lists of the generated list
document (the fieldArgs and queryVars arrays of buildGetListQuery):
last or first, then a cursor argument only when a valid cursor is
present and no offset, then the offset argument only when an offset is
present, then the always-present filter and orderBy arguments. -/
def buildGetListArgs (capSingular : String) (vars : List (String × Value)) :
    List String × List String :=
  let hasOffset := hasOffsetVar vars
  let shouldUseAfter := hasAfterVar vars && !hasOffset
  let shouldUseBefore := hasBeforeVar vars && !hasOffset
  let usesLast := usesLastVar vars
  let fieldArgs :=
    (if usesLast then ["last: $last"] else ["first: $first"])
    ++ (if shouldUseAfter then ["after: $after"]
        else if shouldUseBefore then ["before: $before"] else [])
    ++ (if hasOffset then ["offset: $offset"] else [])
    ++ ["filter: $filter", "orderBy: $orderBy"]
  let queryVars :=
    (if usesLast then ["$last: Int"] else ["$first: Int"])
    ++ (if shouldUseAfter then ["$after: Cursor"]
        else if shouldUseBefore then ["$before: Cursor"] else [])
    ++ (if hasOffset then ["$offset: Int"] else [])
    ++ ["$filter: " ++ (capSingular ++ "Filter"), "$orderBy: [" ++ (capSingular ++ "OrderBy!]")]
  (fieldArgs, queryVars)

theorem string_append_data (p y : String) : (p ++ y).data = p.data ++ y.data := rfl

/-- A string whose second character differs from the second character of
a literal prefix cannot be that prefix followed by anything. -/
theorem append_ne_lit (p y lit : String)
    (h : ∀ t, p.data ++ t ≠ lit.data) : p ++ y ≠ lit := by
  intro he
  exact h y.data (by rw [← string_append_data, he])


theorem paginationVars_no_mix (pagination : Option Pagination) (meta : Option MetaQ) :
    ¬(hasKey "offset" (paginationVars pagination meta) = true ∧
      (hasKey "after" (paginationVars pagination meta) = true ∨
       hasKey "before" (paginationVars pagination meta) = true)) := by
  cases pagination with
  | none => simp [paginationVars, hasKey]
  | some p =>
    cases hn : metaCursorNext meta with
    | some s => simp [paginationVars, hn, hasKey, objInsert, objDelete]
    | none =>
      cases hp : metaCursorPrev meta with
      | some s => simp [paginationVars, hn, hp, hasKey, objInsert, objDelete]
      | none =>
        by_cases hcp : p.currentPage.getD 1 > 1
        · simp [paginationVars, hn, hp, hcp, hasKey, objInsert, objDelete]
        · simp [paginationVars, hn, hp, hcp, hasKey, objInsert, objDelete]

/-- The orderBy/filter phase only adds the orderBy and filter keys: any
other key of the result comes from the pagination phase. -/
theorem buildGetListVariables_keys (pagination : Option Pagination)
    (sorters : Option (List CrudSort)) (filters : Option (List CrudFilter))
    (config : Config) (meta : Option MetaQ) (out : List (String × Value)) (k : String)
    (hk1 : (k == "orderBy") = false) (hk2 : (k == "filter") = false)
    (hok : buildGetListVariables pagination sorters filters config meta = .ok out) :
    hasKey k out = hasKey k (paginationVars pagination meta) := by
  simp only [buildGetListVariables] at hok
  have horder : ∀ l, hasKey k (objInsert "orderBy" (.arr ((generateSorting (some l)).map .str))
      (paginationVars pagination meta)) = hasKey k (paginationVars pagination meta) := by
    intro l
    rw [hasKey_objInsert]
    rw [show ("orderBy" == k) = false from by rw [stringBeqComm]; exact hk1, Bool.false_or]
  cases sorters with
  | none =>
    dsimp only at hok
    cases filters with
    | none =>
      dsimp only at hok
      injection hok with h1
      rw [← h1]
    | some lf =>
      dsimp only at hok
      by_cases hlf : lf.isEmpty = true
      · rw [if_pos hlf] at hok
        injection hok with h1
        rw [← h1]
      · rw [if_neg hlf] at hok
        cases hgf : generateFilters lf config.filterOptions with
        | error e =>
          rw [hgf, exceptBindError] at hok
          cases hok
        | ok filter =>
          rw [hgf, exceptBindOk] at hok
          cases filter with
          | obj fe =>
            dsimp only at hok
            by_cases hfe : fe.isEmpty = true
            · rw [if_pos hfe] at hok
              injection hok with h1
              rw [← h1]
            · rw [if_neg hfe] at hok
              injection hok with h1
              rw [← h1, hasKey_objInsert]
              rw [show ("filter" == k) = false from by rw [stringBeqComm]; exact hk2,
                Bool.false_or]
          | undef => dsimp only at hok; injection hok with h1; rw [← h1]
          | null => dsimp only at hok; injection hok with h1; rw [← h1]
          | bool b => dsimp only at hok; injection hok with h1; rw [← h1]
          | num n => dsimp only at hok; injection hok with h1; rw [← h1]
          | str s => dsimp only at hok; injection hok with h1; rw [← h1]
          | arr l2 => dsimp only at hok; injection hok with h1; rw [← h1]
  | some ls =>
    dsimp only at hok
    by_cases hls : ls.isEmpty = true
    · rw [if_pos hls] at hok
      cases filters with
      | none =>
        dsimp only at hok
        injection hok with h1
        rw [← h1]
      | some lf =>
        dsimp only at hok
        by_cases hlf : lf.isEmpty = true
        · rw [if_pos hlf] at hok
          injection hok with h1
          rw [← h1]
        · rw [if_neg hlf] at hok
          cases hgf : generateFilters lf config.filterOptions with
          | error e =>
            rw [hgf, exceptBindError] at hok
            cases hok
          | ok filter =>
            rw [hgf, exceptBindOk] at hok
            cases filter with
            | obj fe =>
              dsimp only at hok
              by_cases hfe : fe.isEmpty = true
              · rw [if_pos hfe] at hok
                injection hok with h1
                rw [← h1]
              · rw [if_neg hfe] at hok
                injection hok with h1
                rw [← h1, hasKey_objInsert]
                rw [show ("filter" == k) = false from by rw [stringBeqComm]; exact hk2,
                  Bool.false_or]
            | undef => dsimp only at hok; injection hok with h1; rw [← h1]
            | null => dsimp only at hok; injection hok with h1; rw [← h1]
            | bool b => dsimp only at hok; injection hok with h1; rw [← h1]
            | num n => dsimp only at hok; injection hok with h1; rw [← h1]
            | str s => dsimp only at hok; injection hok with h1; rw [← h1]
            | arr l2 => dsimp only at hok; injection hok with h1; rw [← h1]
    · rw [if_neg hls] at hok
      cases filters with
      | none =>
        dsimp only at hok
        injection hok with h1
        rw [← h1, horder]
      | some lf =>
        dsimp only at hok
        by_cases hlf : lf.isEmpty = true
        · rw [if_pos hlf] at hok
          injection hok with h1
          rw [← h1, horder]
        · rw [if_neg hlf] at hok
          cases hgf : generateFilters lf config.filterOptions with
          | error e =>
            rw [hgf, exceptBindError] at hok
            cases hok
          | ok filter =>
            rw [hgf, exceptBindOk] at hok
            cases filter with
            | obj fe =>
              dsimp only at hok
              by_cases hfe : fe.isEmpty = true
              · rw [if_pos hfe] at hok
                injection hok with h1
                rw [← h1, horder]
              · rw [if_neg hfe] at hok
                injection hok with h1
                rw [← h1, hasKey_objInsert]
                rw [show ("filter" == k) = false from by rw [stringBeqComm]; exact hk2,
                  Bool.false_or, horder]
            | undef => dsimp only at hok; injection hok with h1; rw [← h1, horder]
            | null => dsimp only at hok; injection hok with h1; rw [← h1, horder]
            | bool b => dsimp only at hok; injection hok with h1; rw [← h1, horder]
            | num n => dsimp only at hok; injection hok with h1; rw [← h1, horder]
            | str s => dsimp only at hok; injection hok with h1; rw [← h1, horder]
            | arr l2 => dsimp only at hok; injection hok with h1; rw [← h1, horder]


theorem append_ne_by_prefix (p y s : String) (k : Nat)
    (h : p.data.take k ≠ s.data.take k) (hk : k ≤ p.data.length) : (p ++ y) ≠ s := by
  intro he
  apply h
  have hd := congrArg String.data he
  rw [string_append_data] at hd
  rw [← hd, List.take_append_of_le_length hk]

/-- C1: cursor and offset arguments are mutually exclusive, both in the
resolved variables produced by buildGetListVariables (an offset key
never coexists with an after or before key) and in the pagination
arguments and variable declarations emitted into the generated list
document by buildGetListQuery. -/
theorem C1_cursor_offset_mutually_exclusive :
    (∀ pagination sorters filters config meta out,
      buildGetListVariables pagination sorters filters config meta = .ok out →
      ¬(hasKey "offset" out = true ∧
        (hasKey "after" out = true ∨ hasKey "before" out = true))) ∧
    (∀ capSingular vars,
      ("offset: $offset" ∈ (buildGetListArgs capSingular vars).1 →
        ¬ "after: $after" ∈ (buildGetListArgs capSingular vars).1 ∧
        ¬ "before: $before" ∈ (buildGetListArgs capSingular vars).1) ∧
      (("after: $after" ∈ (buildGetListArgs capSingular vars).1 ∨
        "before: $before" ∈ (buildGetListArgs capSingular vars).1) →
        ¬ "offset: $offset" ∈ (buildGetListArgs capSingular vars).1) ∧
      ("$offset: Int" ∈ (buildGetListArgs capSingular vars).2 →
        ¬ "$after: Cursor" ∈ (buildGetListArgs capSingular vars).2 ∧
        ¬ "$before: Cursor" ∈ (buildGetListArgs capSingular vars).2) ∧
      (("$after: Cursor" ∈ (buildGetListArgs capSingular vars).2 ∨
        "$before: Cursor" ∈ (buildGetListArgs capSingular vars).2) →
        ¬ "$offset: Int" ∈ (buildGetListArgs capSingular vars).2)) := by
  constructor
  · intro pagination sorters filters config meta out hok
    have ho := buildGetListVariables_keys pagination sorters filters config meta out
      "offset" (by decide) (by decide) hok
    have ha := buildGetListVariables_keys pagination sorters filters config meta out
      "after" (by decide) (by decide) hok
    have hb := buildGetListVariables_keys pagination sorters filters config meta out
      "before" (by decide) (by decide) hok
    rw [ho, ha, hb]
    exact paginationVars_no_mix pagination meta
  · intro capSingular vars
    have hne1 : ("$filter: " ++ (capSingular ++ "Filter")) ≠ "$offset: Int" :=
      append_ne_by_prefix _ _ _ 2 (by decide) (by decide)
    have hne2 : ("$filter: " ++ (capSingular ++ "Filter")) ≠ "$after: Cursor" :=
      append_ne_by_prefix _ _ _ 2 (by decide) (by decide)
    have hne3 : ("$filter: " ++ (capSingular ++ "Filter")) ≠ "$before: Cursor" :=
      append_ne_by_prefix _ _ _ 2 (by decide) (by decide)
    have hne4 : ("$orderBy: [" ++ (capSingular ++ "OrderBy!]")) ≠ "$offset: Int" :=
      append_ne_by_prefix _ _ _ 3 (by decide) (by decide)
    have hne5 : ("$orderBy: [" ++ (capSingular ++ "OrderBy!]")) ≠ "$after: Cursor" :=
      append_ne_by_prefix _ _ _ 2 (by decide) (by decide)
    have hne6 : ("$orderBy: [" ++ (capSingular ++ "OrderBy!]")) ≠ "$before: Cursor" :=
      append_ne_by_prefix _ _ _ 2 (by decide) (by decide)
    simp only [buildGetListArgs]
    by_cases ho : hasOffsetVar vars = true <;>
      by_cases ha : hasAfterVar vars = true <;>
        by_cases hb : hasBeforeVar vars = true <;>
          by_cases hl : usesLastVar vars = true <;>
            simp [ho, ha, hb, hl, hne1, hne2, hne3, hne4, hne5, hne6,
              Ne.symm hne1, Ne.symm hne2, Ne.symm hne3, Ne.symm hne4, Ne.symm hne5,
              Ne.symm hne6]

theorem C1_witness :
    buildGetListVariables (some { currentPage := some 3, pageSize := some 10 })
        none none {} none = .ok [("first", Value.num 10), ("offset", Value.num 20)] ∧
      ¬(hasKey "offset" [("first", Value.num 10), ("offset", Value.num 20)] = true ∧
        (hasKey "after" [("first", Value.num 10), ("offset", Value.num 20)] = true ∨
         hasKey "before" [("first", Value.num 10), ("offset", Value.num 20)] = true)) := by
  have hok : buildGetListVariables (some { currentPage := some 3, pageSize := some 10 })
      none none {} none = .ok [("first", Value.num 10), ("offset", Value.num 20)] := by
    simp [buildGetListVariables, paginationVars, metaCursorNext, metaCursorPrev,
      objInsert, objDelete]
  exact ⟨hok, C1_cursor_offset_mutually_exclusive.1 _ none none {} none _ hok⟩


/-! ## Naming helpers and response parsers (src/dataProvider/index.ts) -/

/-- JS endsWith restricted to a concrete ASCII suffix. -/
def strEndsWith (s : String) (suffix : List Char) : Bool :=
  suffix.reverse.isPrefixOf s.data.reverse

/-- singularize from src/dataProvider/index.ts: ies to y, strip a single
trailing s unless the word ends in a double s. -/
def singularize (word : String) : String :=
  if strEndsWith word ['i', 'e', 's'] then
    ⟨word.data.take (word.data.length - 3)⟩ ++ "y"
  else if strEndsWith word ['s'] && !(strEndsWith word ['s', 's']) then
    ⟨word.data.take (word.data.length - 1)⟩
  else word

/-- JS charAt(0).toUpperCase() + slice(1). -/
def jsCapitalize (s : String) : String :=
  match s.data with
  | [] => ""
  | c :: rest => ⟨jsUpperChar c :: rest⟩

/-- getListOperationName: meta.operation when truthy, else the resource
name unchanged (lists keep the plural resource name). -/
def getListOperationName (resource : String) (meta : Option MetaQ) : String :=
  match meta with
  | some m =>
    match m.operation with
    | some s => if s == "" then resource else s
    | none => resource
  | none => resource

/-- getSingleOperationName: meta.operation when truthy, else the
singularized resource name. -/
def getSingleOperationName (resource : String) (meta : Option MetaQ) : String :=
  match meta with
  | some m =>
    match m.operation with
    | some s => if s == "" then singularize resource else s
    | none => singularize resource
  | none => singularize resource

/-- JS a || b. -/
def jsOr (a b : Value) : Value := if a.truthy then a else b

/-- The root field name of a list response under the active naming
convention. -/
def listFieldName (operationName : String) (config : Config) : String :=
  match config.namingConvention.getD .simplified with
  | .simplified => jsToLower operationName
  | .standard => "all" ++ jsCapitalize operationName

/-- The normalized list result: the extracted items, the totalCount
value (defaulted to 0), and the optional cursor pair. -/
structure GetListResult where
  data : Value
  total : Value
  cursor : Option Value

/-- The per-edge node projection of the simplified item shape
(a null/undefined edge raises a TypeError, as the JS map would). -/
def mapEdges : List Value → Except String (List Value)
  | [] => .ok []
  | e :: rest => do
    let n ← Value.getPropE e "node"
    let ns ← mapEdges rest
    .ok (n :: ns)

/-- The item-extraction part of parseGetListResponse: a truthy nodes
value wins, otherwise a truthy edges array is mapped over its node
properties, otherwise the data defaults to an empty array. -/
def extractListData (connection : Value) : Except String Value :=
  if (connection.getProp "nodes").truthy then .ok (connection.getProp "nodes")
  else if (connection.getProp "edges").truthy then
    match connection.getProp "edges" with
    | .arr edges => (mapEdges edges).map Value.arr
    | _ => .error "TypeError: connection.edges.map is not a function"
  else .ok (.arr [])

/-- The cursor extraction of parseGetListResponse: only when pageInfo is
truthy and at least one of endCursor/startCursor is truthy. -/
def extractCursor (connection : Value) : Option Value :=
  if (connection.getProp "pageInfo").truthy then
    let pi := connection.getProp "pageInfo"
    let next := jsOr (pi.getProp "endCursor") .undef
    let prev := jsOr (pi.getProp "startCursor") .undef
    if next.truthy || prev.truthy then
      some (.obj (buildObj ((if next.truthy then [("next", next)] else []) ++
        (if prev.truthy then [("prev", prev)] else []))))
    else none
  else none

/-- parseGetListResponse from src/dataProvider/index.ts. -/
def parseGetListResponse (response : Value) (operationName : String) (config : Config) :
    Except String GetListResult := do
  let fieldName := listFieldName operationName config
  let connection ← Value.getPropE response fieldName
  if connection.truthy then do
    let data ← extractListData connection
    let total := jsOr (connection.getProp "totalCount") (.num 0)
    .ok { data := data, total := total, cursor := extractCursor connection }
  else
    .error ("Expected \x27" ++ fieldName ++ "\x27 field in response")

/-- The three-way payload probe shared by the mutation response parsers:
result.data, else result.post, else result[singularName], by JS
truthiness. -/
def probePayload (result : Value) (singularName : String) : Value :=
  jsOr (result.getProp "data") (jsOr (result.getProp "post") (result.getProp singularName))

/-- The error text thrown when no payload wrapper matches. -/
def probeErrorMsg (fieldName singularName : String) : String :=
  "Expected \x27" ++ fieldName ++ ".data\x27, \x27" ++ fieldName ++ ".post\x27, or \x27" ++
    fieldName ++ "." ++ singularName ++ "\x27 field in response"

/-- parseCreateResponse from src/dataProvider/index.ts. -/
def parseCreateResponse (response : Value) (operationName : String) (config : Config) :
    Except String Value := do
  let fieldName := "create" ++ jsToLower operationName
  let result ← Value.getPropE response fieldName
  if result.truthy then
    let singularName := jsToLower operationName
    let data := probePayload result singularName
    if data.truthy then .ok data
    else .error (probeErrorMsg fieldName singularName)
  else .error ("Expected \x27" ++ fieldName ++ "\x27 field in response")

/-- The root field name of an update mutation response. -/
def updateFieldName (operationName : String) (config : Config) : String :=
  match config.namingConvention.getD .simplified with
  | .simplified => "update" ++ jsCapitalize operationName ++ "ById"
  | .standard => "update" ++ jsToLower operationName

/-- parseUpdateResponse from src/dataProvider/index.ts. -/
def parseUpdateResponse (response : Value) (operationName : String) (config : Config) :
    Except String Value := do
  let fieldName := updateFieldName operationName config
  let result ← Value.getPropE response fieldName
  if result.truthy then
    let singularName := jsToLower operationName
    let data := probePayload result singularName
    if data.truthy then .ok data
    else .error (probeErrorMsg fieldName singularName)
  else .error ("Expected \x27" ++ fieldName ++ "\x27 field in response")

/-- The root field name of a delete mutation response. -/
def deleteFieldName (operationName : String) (config : Config) : String :=
  match config.namingConvention.getD .simplified with
  | .simplified => "delete" ++ jsCapitalize operationName ++ "ById"
  | .standard => "delete" ++ jsToLower operationName

/-- parseDeleteResponse from src/dataProvider/index.ts. -/
def parseDeleteResponse (response : Value) (operationName : String) (config : Config) :
    Except String Value := do
  let fieldName := deleteFieldName operationName config
  let result ← Value.getPropE response fieldName
  if result.truthy then
    let singularName := jsToLower operationName
    let data := probePayload result singularName
    if data.truthy then .ok data
    else .error (probeErrorMsg fieldName singularName)
  else .error ("Expected \x27" ++ fieldName ++ "\x27 field in response")


/-- C6 counterexample: when a connection carries both a nodes array and
an edges array, the parser returns the nodes items, not the edges
items — the claim names edges[].node as the winner. -/
theorem C6_counterexample :
    (parseGetListResponse
        (Value.obj [("users", Value.obj
          [("nodes", Value.arr [Value.obj [("id", Value.num 1)]]),
           ("edges", Value.arr [Value.obj [("node", Value.obj [("id", Value.num 2)])]])])])
        "users" {}).map GetListResult.data =
      Except.ok (Value.arr [Value.obj [("id", Value.num 1)]]) ∧
    Value.arr [Value.obj [("id", Value.num 1)]] ≠ Value.arr [Value.obj [("id", Value.num 2)]] :=
  ⟨rfl, by simp⟩

/-- C6 (amended): parseGetListResponse extracts items from a truthy
nodes value first, else maps a truthy edges array over its node
properties, else returns an empty array; when both nodes and edges are
present, nodes wins. -/
theorem C6_list_items_nodes_priority :
    (∀ connection : Value,
      ((connection.getProp "nodes").truthy = true →
        extractListData connection = .ok (connection.getProp "nodes")) ∧
      ((connection.getProp "nodes").truthy = false →
        (connection.getProp "edges").truthy = true →
        ∀ edges, connection.getProp "edges" = .arr edges →
          extractListData connection = (mapEdges edges).map Value.arr) ∧
      ((connection.getProp "nodes").truthy = false →
        (connection.getProp "edges").truthy = false →
        extractListData connection = .ok (.arr []))) ∧
    (∀ response opName config r,
      parseGetListResponse response opName config = .ok r →
      ∀ connection, Value.getPropE response (listFieldName opName config) = .ok connection →
        extractListData connection = .ok r.data) := by
  constructor
  · intro connection
    refine ⟨?_, ?_, ?_⟩
    · intro hn
      rw [extractListData, if_pos hn]
    · intro hn he edges hedges
      rw [extractListData, if_neg (by simp [hn]), if_pos he, hedges]
    · intro hn he
      rw [extractListData, if_neg (by simp [hn]), if_neg (by simp [he])]
  · intro response opName config r hok connection hg
    rw [parseGetListResponse] at hok
    rw [hg, exceptBindOk] at hok
    by_cases ht : connection.truthy = true
    · rw [if_pos ht] at hok
      cases hx : extractListData connection with
      | error e =>
        rw [hx, exceptBindError] at hok
        cases hok
      | ok d =>
        rw [hx, exceptBindOk] at hok
        injection hok with h1
        rw [← h1]
    · rw [if_neg ht] at hok
      cases hok

theorem C6_witness :
    extractListData (Value.obj
        [("nodes", Value.arr [Value.obj [("id", Value.num 1)]]),
         ("edges", Value.arr [Value.obj [("node", Value.obj [("id", Value.num 2)])]])]) =
      .ok (Value.arr [Value.obj [("id", Value.num 1)]]) :=
  (C6_list_items_nodes_priority.1 _).1 (by decide)

/-- C7: the mutation response parsers probe for the payload under data,
then post, then the lower-cased singular resource name, first truthy
match winning, and throw the error naming the three expected keys
exactly when none of the three is truthy. -/
theorem C7_mutation_payload_probing :
    (∀ (result : Value) (s : String),
      ((result.getProp "data").truthy = true →
        probePayload result s = result.getProp "data") ∧
      ((result.getProp "data").truthy = false →
        (result.getProp "post").truthy = true →
        probePayload result s = result.getProp "post") ∧
      ((result.getProp "data").truthy = false →
        (result.getProp "post").truthy = false →
        probePayload result s = result.getProp s)) ∧
    (∀ opName config response result,
      Value.getPropE response ("create" ++ jsToLower opName) = .ok result →
      result.truthy = true →
      parseCreateResponse response opName config =
        (if (probePayload result (jsToLower opName)).truthy then
          .ok (probePayload result (jsToLower opName))
        else .error (probeErrorMsg ("create" ++ jsToLower opName) (jsToLower opName)))) ∧
    (∀ opName config response result,
      Value.getPropE response (updateFieldName opName config) = .ok result →
      result.truthy = true →
      parseUpdateResponse response opName config =
        (if (probePayload result (jsToLower opName)).truthy then
          .ok (probePayload result (jsToLower opName))
        else .error (probeErrorMsg (updateFieldName opName config) (jsToLower opName)))) := by
  refine ⟨?_, ?_, ?_⟩
  · intro result s
    refine ⟨?_, ?_, ?_⟩
    · intro hd
      rw [probePayload, jsOr, if_pos hd]
    · intro hd hp
      rw [probePayload, jsOr, if_neg (by simp [hd]), jsOr, if_pos hp]
    · intro hd hp
      rw [probePayload, jsOr, if_neg (by simp [hd]), jsOr, if_neg (by simp [hp])]
  · intro opName config response result hres htr
    rw [parseCreateResponse, hres, exceptBindOk, if_pos htr]
  · intro opName config response result hres htr
    rw [parseUpdateResponse, hres, exceptBindOk, if_pos htr]

theorem C7_witness :
    parseCreateResponse (Value.obj [("createuser",
        Value.obj [("post", Value.obj [("id", Value.num 7)])])]) "user" {} =
      Except.ok (Value.obj [("id", Value.num 7)]) := by
  have h := C7_mutation_payload_probing.2.1 "user" {}
    (Value.obj [("createuser", Value.obj [("post", Value.obj [("id", Value.num 7)])])])
    (Value.obj [("post", Value.obj [("id", Value.num 7)])]) rfl rfl
  rw [h]
  rfl


/-! ## Document synthesis (utils/graphql.ts and the builders of
src/dataProvider/index.ts)

Literal braces of the GraphQL templates are written with hex escapes. -/

/-- The JS whitespace class of the documents involved (ASCII subset). -/
def isJsWs (c : Char) : Bool :=
  c == ' ' || c == '\t' || c == '\n' || c == '\r'

/-- JS String.prototype.trim (ASCII fragment). -/
def jsTrim (s : String) : String :=
  ⟨((s.data.dropWhile isJsWs).reverse.dropWhile isJsWs).reverse⟩

/-- buildGraphQLQuery from utils/graphql.ts. -/
def buildGraphQLQuery (operation : String) (name : String) (varDefsList : List String)
    (selection : String) : String :=
  let variableDefs :=
    if varDefsList.length > 0 then "(" ++ String.intercalate ", " varDefsList ++ ")" else ""
  jsTrim ("\n    " ++ operation ++ " " ++ name ++ variableDefs ++
    " \x7b\n      " ++ selection ++ "\n    \x7d\n  ")

/-- The length of the match of the pattern pre, whitespace run, post at
the head of the list (the shape of the two replacement regexes of
buildGetListQuery). -/
def countLeadingWs : List Char → Nat
  | c :: rest => if isJsWs c then countLeadingWs rest + 1 else 0
  | [] => 0

def matchLen (pre post : List Char) (l : List Char) : Option Nat :=
  if pre.isPrefixOf l then
    let rest := l.drop pre.length
    let w := countLeadingWs rest
    if post.isPrefixOf (rest.drop w) then some (pre.length + w + post.length) else none
  else none

/-- Global replacement of the pattern by repl, resuming after each match
(JS global-regex semantics; a zero-length match is advanced over). -/
def replacePat (pre post repl : List Char) : List Char → List Char
  | [] => []
  | c :: rest =>
    match matchLen pre post (c :: rest) with
    | some k =>
      if h : k = 0 then c :: replacePat pre post repl rest
      else repl ++ replacePat pre post repl ((c :: rest).drop k)
    | none => c :: replacePat pre post repl rest
termination_by l => l.length
decreasing_by
  all_goals simp only [List.length_drop, List.length_cons]
  all_goals omega

/-- First-occurrence string replacement (JS replace with a string
pattern), for the cacheControl injection. -/
def replaceFirst (pat repl : List Char) : List Char → List Char
  | [] => if pat.isEmpty then repl else []
  | c :: rest =>
    if pat.isPrefixOf (c :: rest) then repl ++ (c :: rest).drop pat.length
    else c :: replaceFirst pat repl rest

/-- The truthiness of meta.gqlQuery (an empty string document is falsy). -/
def gqlQueryTruthy (meta : Option MetaQ) : Bool :=
  match meta with
  | some m =>
    match m.gqlQuery with
    | some (.strDoc s) => s != ""
    | some _ => true
    | none => false
  | none => false

/-- The operators that make a query non-cacheable in
analyzeQueryPerformance (the only behaviour-affecting output of the
performance analysis; its complexity score and suggestions feed logging
and an opt-in debug attachment only and are not modelled). -/
def dynamicFilterOps : List String := ["contains", "containss", "startswith", "endswith"]

def hasDynamicFilters (filters : List CrudFilter) : Bool :=
  filters.any fun f =>
    match f with
    | .fieldF _ op _ => dynamicFilterOps.contains op
    | .condF op _ => dynamicFilterOps.contains op

/-- The cacheable flag of analyzeQueryPerformance. -/
def queryCacheable (filters : List CrudFilter) : Bool := !hasDynamicFilters filters

/-- The de-duplicating field-set construction of buildGetListQuery
(JS Set insertion order, with id appended when missing). -/
def jsSetList (l : List String) : List String :=
  l.foldl (fun acc x => if acc.contains x then acc else acc ++ [x]) []

def listQueryFields (meta : Option MetaQ) : String :=
  match meta with
  | some m =>
    match m.fields with
    | some fl =>
      if fl.length > 0 then
        let s := jsSetList fl
        let s2 := if s.contains "id" then s else s ++ ["id"]
        String.intercalate "\n          " s2
      else "id"
    | none => "id"
  | none => "id"

/-- The best-effort cursor-to-offset substitution applied to a
caller-supplied list document when the resolved variables are
offset-mode: the cursor variable declaration and field argument are
rewritten to their offset equivalents. -/
def substituteOffset (queryString : String) (vars : List (String × Value)) : String :=
  if hasOffsetVar vars && !hasAfterVar vars && !hasBeforeVar vars then
    ⟨replacePat "after:".data "$after".data "offset: $offset".data
      (replacePat "$after:".data "Cursor".data "$offset: Int".data queryString.data)⟩
  else queryString

/-- The generated branch of buildGetListQuery. -/
def generatedGetListQuery (operationName : String) (meta : Option MetaQ) (config : Config)
    (vars : List (String × Value)) : String :=
  let fields := listQueryFields meta
  let singularName := singularize operationName
  let capitalizedSingularName := jsCapitalize singularName
  let capitalizedName := jsCapitalize operationName
  let namingConvention := config.namingConvention.getD .simplified
  let fieldName :=
    match namingConvention with
    | .simplified => jsToLower operationName
    | .standard => "all" ++ capitalizedName
  let itemsSelection :=
    match namingConvention with
    | .simplified =>
      "edges \x7b\n        node \x7b\n          " ++ fields ++
        "\n        \x7d\n      \x7d"
    | .standard => "nodes \x7b\n        " ++ fields ++ "\n      \x7d"
  let args := buildGetListArgs capitalizedSingularName vars
  let selection := "\n    " ++ fieldName ++ "(\n      " ++
    String.intercalate "\n      " args.1 ++ "\n    ) \x7b\n      " ++ itemsSelection ++
    "\n      totalCount\n      pageInfo \x7b\n        hasNextPage\n        " ++
    "hasPreviousPage\n        startCursor\n        endCursor\n      \x7d\n    \x7d\n  "
  buildGraphQLQuery "query" ("Get" ++ capitalizedSingularName ++ "List") args.2
    (jsTrim selection)

/-- buildGetListQuery from src/dataProvider/index.ts: a caller-supplied
document is used verbatim except for the cursor-to-offset substitution
when the resolved variables are offset-mode; otherwise the document is
generated from the naming convention, the field set and the argument
lists. -/
def buildGetListQuery (operationName : String) (meta : Option MetaQ) (config : Config)
    (vars : List (String × Value)) : String :=
  match meta with
  | some m =>
    match m.gqlQuery with
    | some d =>
      match d with
      | .otherDoc => ""
      | .strDoc s => substituteOffset s vars
      | .nodeDoc body => substituteOffset body vars
    | none => generatedGetListQuery operationName meta config vars
  | none => generatedGetListQuery operationName meta config vars

/-- The verbatim extraction of a caller-supplied mutation document
(object with loc, string, or the empty string otherwise). -/
def customMutationBody (meta : Option MetaQ) : Option String :=
  match meta with
  | some m =>
    match m.gqlMutation with
    | some (.nodeDoc body) => some body
    | some (.strDoc s) => some s
    | some .otherDoc => some ""
    | none => none
  | none => none

/-- The field join of the mutation builders. -/
def mutationFields (meta : Option MetaQ) : String :=
  match meta with
  | some m =>
    match m.fields with
    | some fl => String.intercalate "\n          " fl
    | none => "id"
  | none => "id"

/-- buildCreateMutation from src/dataProvider/index.ts. -/
def buildCreateMutation (operationName : String) (meta : Option MetaQ) (config : Config) :
    String :=
  match customMutationBody meta with
  | some s => s
  | none =>
    let fields := mutationFields meta
    let namingConvention := config.namingConvention.getD .simplified
    let responseProperty :=
      match namingConvention with
      | .simplified => "post"
      | .standard => "data"
    let selection := "\n    create" ++ jsToLower operationName ++
      "(input: $input) \x7b\n      " ++ responseProperty ++ " \x7b\n        " ++ fields ++
      "\n      \x7d\n    \x7d\n  "
    buildGraphQLQuery "mutation" ("Create" ++ operationName)
      ["$input: Create" ++ jsToLower operationName ++ "Input!"] (jsTrim selection)

/-- buildUpdateMutation from src/dataProvider/index.ts. -/
def buildUpdateMutation (operationName : String) (meta : Option MetaQ) (config : Config) :
    String :=
  match customMutationBody meta with
  | some s => s
  | none =>
    let fields := mutationFields meta
    let namingConvention := config.namingConvention.getD .simplified
    let capitalizedName := jsCapitalize operationName
    let mutationName :=
      match namingConvention with
      | .simplified => "update" ++ capitalizedName ++ "ById"
      | .standard => "update" ++ jsToLower operationName
    let inputTypeName :=
      match namingConvention with
      | .simplified => "Update" ++ capitalizedName ++ "ByIdInput"
      | .standard => "Update" ++ jsToLower operationName ++ "Input"
    let responseProperty :=
      match namingConvention with
      | .simplified => "post"
      | .standard => "data"
    let selection := "\n    " ++ mutationName ++ "(input: $input) \x7b\n      " ++
      responseProperty ++ " \x7b\n        " ++ fields ++ "\n      \x7d\n    \x7d\n  "
    buildGraphQLQuery "mutation" ("Update" ++ capitalizedName)
      ["$input: " ++ inputTypeName ++ "!"] (jsTrim selection)

/-- buildDeleteMutation from src/dataProvider/index.ts. -/
def buildDeleteMutation (operationName : String) (meta : Option MetaQ) (config : Config) :
    String :=
  match customMutationBody meta with
  | some s => s
  | none =>
    let fields := mutationFields meta
    let namingConvention := config.namingConvention.getD .simplified
    let capitalizedName := jsCapitalize operationName
    let mutationName :=
      match namingConvention with
      | .simplified => "delete" ++ capitalizedName ++ "ById"
      | .standard => "delete" ++ jsToLower operationName
    let inputTypeName :=
      match namingConvention with
      | .simplified => "Delete" ++ capitalizedName ++ "ByIdInput"
      | .standard => "Delete" ++ jsToLower operationName ++ "Input"
    let responseProperty :=
      match namingConvention with
      | .simplified => "post"
      | .standard => "data"
    let selection := "\n    " ++ mutationName ++ "(input: $input) \x7b\n      " ++
      responseProperty ++ " \x7b\n        " ++ fields ++ "\n      \x7d\n    \x7d\n  "
    buildGraphQLQuery "mutation" ("Delete" ++ capitalizedName)
      ["$input: " ++ inputTypeName ++ "!"] (jsTrim selection)

/-! ## The dispatcher operations (src/dataProvider/index.ts): each
operation runs against an abstract transport client — a pure function
from the issued document and variables object to a response or a
transport error — and returns its result together with the log of the
requests it issued, in issue order. -/

/-- An abstract GraphQL transport. -/
def GqlClient : Type := String → Value → Except String Value

/-- handleError from src/dataProvider/index.ts: it rewraps only errors
carrying a response.errors array; the abstract transport error is a
plain message with no such structure, so it passes through unchanged. -/
def handleError (e : String) : String := e

/-- handleGraphQLError from utils/errors.ts: every branch preserves the
message of a plain error without response/network metadata (the
fallback wraps error.message verbatim), so on the abstract transport
error it is message-preserving. -/
def handleGraphQLError (e : String) : String := e

/-- getList from src/dataProvider/index.ts: the variables are built
first (a filter-validation error rejects before any request is
issued), the document is synthesized, a cacheControl hint is injected
into the first occurrence of the query keyword for cacheable generated
queries outside test environments (envTest models
process.env.NODE_ENV being the test value), one request is issued, and
the response is parsed; request and parse errors pass through
handleGraphQLError. The development-mode complexity logging and the
opt-in performance-metadata attachment do not change the data result
and are not modelled. -/
def getList (client : GqlClient) (envTest : Bool) (resource : String)
    (pagination : Option Pagination) (sorters : Option (List CrudSort))
    (filters : Option (List CrudFilter)) (meta : Option MetaQ) (config : Config) :
    Except String GetListResult × List (String × Value) :=
  let operationName := getListOperationName resource meta
  match buildGetListVariables pagination sorters filters config meta with
  | .error e => (.error e, [])
  | .ok vars =>
    let query := buildGetListQuery operationName meta config vars
    let finalQuery :=
      if queryCacheable (filters.getD []) && !gqlQueryTruthy meta && !envTest then
        ⟨replaceFirst "query ".data "query @cacheControl(maxAge: 300) ".data query.data⟩
      else query
    match client finalQuery (.obj vars) with
    | .error e => (.error (handleGraphQLError e), [(finalQuery, .obj vars)])
    | .ok response =>
      ((parseGetListResponse response operationName config).mapError handleGraphQLError,
        [(finalQuery, .obj vars)])

/-- getMany from src/dataProvider/index.ts: a single getList call with
page 1, a page size equal to the id count, and one in-filter on id;
the result is the list result data. -/
def getMany (client : GqlClient) (envTest : Bool) (resource : String) (ids : List Value)
    (meta : Option MetaQ) (config : Config) :
    Except String Value × List (String × Value) :=
  let r := getList client envTest resource
    (some { currentPage := some 1, pageSize := some (ids.length : Int) })
    none (some [CrudFilter.fieldF "id" "in" (.arr ids)]) meta config
  (r.1.map GetListResult.data, r.2)

/-- create from src/dataProvider/index.ts: the generated (or custom)
mutation document, an input wrapper keyed by the lower-cased operation
name around the camel-case-converted variables, one request, and the
parsed payload; request and parse errors pass through handleError. -/
def create (client : GqlClient) (resource : String) (variablesV : Value)
    (meta : Option MetaQ) (config : Config) :
    Except String Value × List (String × Value) :=
  let operationName := getSingleOperationName resource meta
  let mutation := buildCreateMutation operationName meta config
  let fieldName := jsToLower operationName
  let convertedVariables := convertKeysToCamelCase variablesV
  let mutationVariables : Value := .obj [("input", .obj [(fieldName, convertedVariables)])]
  match client mutation mutationVariables with
  | .error e => (.error (handleError e), [(mutation, mutationVariables)])
  | .ok response =>
    ((parseCreateResponse response operationName config).mapError handleError,
      [(mutation, mutationVariables)])

/-- The rest-destructuring of the update variables
(const { id: _, ...updateVariables } = variables): null and
undefined throw a TypeError before any request; any other value
contributes its own enumerable string-keyed entries minus id. -/
def objRest (v : Value) : Except String Value :=
  match v with
  | .undef => .error "TypeError: Cannot destructure 'variables' as it is undefined."
  | .null => .error "TypeError: Cannot destructure 'variables' as it is null."
  | w => .ok (.obj (objDelete "id" (spreadEntries w)))

/-- update from src/dataProvider/index.ts: the id is split away from
the variables, the remainder is camel-case-converted and sent as the
patch of an input wrapper also carrying the id, one request, and the
parsed payload. -/
def update (client : GqlClient) (resource : String) (id : Value) (variablesV : Value)
    (meta : Option MetaQ) (config : Config) :
    Except String Value × List (String × Value) :=
  let operationName := getSingleOperationName resource meta
  let mutation := buildUpdateMutation operationName meta config
  match objRest variablesV with
  | .error e => (.error e, [])
  | .ok updateVariables =>
    let convertedVariables := convertKeysToCamelCase updateVariables
    let mutationVariables : Value :=
      .obj [("input", .obj [("id", id), ("patch", convertedVariables)])]
    match client mutation mutationVariables with
    | .error e => (.error (handleError e), [(mutation, mutationVariables)])
    | .ok response =>
      ((parseUpdateResponse response operationName config).mapError handleError,
        [(mutation, mutationVariables)])

/-- deleteOne from src/dataProvider/index.ts: one request carrying only
the id in the input wrapper, and the parsed payload. -/
def deleteOne (client : GqlClient) (resource : String) (id : Value)
    (meta : Option MetaQ) (config : Config) :
    Except String Value × List (String × Value) :=
  let operationName := getSingleOperationName resource meta
  let mutation := buildDeleteMutation operationName meta config
  let variablesV : Value := .obj [("input", .obj [("id", id)])]
  match client mutation variablesV with
  | .error e => (.error (handleError e), [(mutation, variablesV)])
  | .ok response =>
    ((parseDeleteResponse response operationName config).mapError handleError,
      [(mutation, variablesV)])

/-- The aggregation of Promise.all: the aggregate resolves with the
list of the per-item results exactly when every item resolves, and
rejects otherwise (every request was still issued; the logs are
concatenated separately). -/
def seqExcept : List (Except String Value) → Except String (List Value)
  | [] => .ok []
  | .error e :: _ => .error e
  | .ok v :: rest => (seqExcept rest).map (fun vs => v :: vs)

/-- createMany from src/dataProvider/index.ts: Promise.all over one
create per variables object, in input order. -/
def createMany (client : GqlClient) (resource : String) (variablesList : List Value)
    (meta : Option MetaQ) (config : Config) :
    Except String (List Value) × List (String × Value) :=
  let results := variablesList.map (fun v => create client resource v meta config)
  (seqExcept (results.map Prod.fst), (results.map Prod.snd).flatten)

/-- The error thrown by updateMany when no explicit ids are given. -/
def bulkUpdateErrorMsg : String :=
  "Bulk update operations with filters require custom PostGraphile schema extensions. " ++
    "Use individual update operations or implement custom bulk update mutations in your " ++
    "PostGraphile schema."

/-- The error thrown by deleteMany when no explicit ids are given. -/
def bulkDeleteErrorMsg : String :=
  "Bulk delete operations with filters require custom PostGraphile schema extensions. " ++
    "Use individual delete operations or implement custom bulk delete mutations in your " ++
    "PostGraphile schema."

/-- updateMany from src/dataProvider/index.ts: a truthy non-empty ids
list decomposes into Promise.all over one update per id; otherwise the
bulk-filter error is thrown before any request. -/
def updateMany (client : GqlClient) (resource : String) (ids : Option (List Value))
    (variablesV : Value) (meta : Option MetaQ) (config : Config) :
    Except String (List Value) × List (String × Value) :=
  match ids with
  | some l =>
    if l.length > 0 then
      let results := l.map (fun i => update client resource i variablesV meta config)
      (seqExcept (results.map Prod.fst), (results.map Prod.snd).flatten)
    else (.error bulkUpdateErrorMsg, [])
  | none => (.error bulkUpdateErrorMsg, [])

/-- deleteMany from src/dataProvider/index.ts: a truthy non-empty ids
list decomposes into Promise.all over one deleteOne per id; otherwise
the bulk-filter error is thrown before any request. -/
def deleteMany (client : GqlClient) (resource : String) (ids : Option (List Value))
    (meta : Option MetaQ) (config : Config) :
    Except String (List Value) × List (String × Value) :=
  match ids with
  | some l =>
    if l.length > 0 then
      let results := l.map (fun i => deleteOne client resource i meta config)
      (seqExcept (results.map Prod.fst), (results.map Prod.snd).flatten)
    else (.error bulkDeleteErrorMsg, [])
  | none => (.error bulkDeleteErrorMsg, [])

/-- The request log of getList has exactly one entry when the variables
build succeeds and none when it rejects. -/
theorem getList_log_length (client : GqlClient) (envTest : Bool) (resource : String)
    (pagination : Option Pagination) (sorters : Option (List CrudSort))
    (filters : Option (List CrudFilter)) (meta : Option MetaQ) (config : Config) :
    (getList client envTest resource pagination sorters filters meta config).2.length =
      (if (buildGetListVariables pagination sorters filters config meta).isOk
       then 1 else 0) := by
  simp only [getList]
  cases h : buildGetListVariables pagination sorters filters config meta with
  | error e => rfl
  | ok vars =>
    dsimp only
    split <;> rfl

/-- Promise.all resolution: an ok aggregate is exactly the per-item ok
results in order. -/
theorem seqExcept_ok : ∀ {es : List (Except String Value)} {vs : List Value},
    seqExcept es = .ok vs → es = vs.map Except.ok
  | [], vs, h => by
    injection h with h
    rw [← h]
    rfl
  | .error e :: rest, vs, h => by
    simp only [seqExcept] at h
    cases h
  | .ok v :: rest, vs, h => by
    simp only [seqExcept] at h
    cases hr : seqExcept rest with
    | error e =>
      rw [hr] at h
      cases h
    | ok vs0 =>
      rw [hr] at h
      injection h with h
      rw [← h]
      simp [seqExcept_ok hr]

/-- C2: updateMany and deleteMany called with an absent or empty ids
list reject with their unsupported-bulk-filter errors and issue no
request at all. -/
theorem C2_bulk_without_ids_rejected (client : GqlClient) (resource : String)
    (ids : Option (List Value)) (variablesV : Value) (meta : Option MetaQ) (config : Config)
    (h : ids = none ∨ ids = some []) :
    updateMany client resource ids variablesV meta config = (.error bulkUpdateErrorMsg, []) ∧
      deleteMany client resource ids meta config = (.error bulkDeleteErrorMsg, []) := by
  rcases h with h | h <;> subst h <;> exact ⟨rfl, rfl⟩

theorem C2_witness :
    (some ([] : List Value) = none ∨ some ([] : List Value) = some []) ∧
    (updateMany (fun _ _ => .ok (.obj [])) "users" (some []) (.obj []) none {} =
        (.error bulkUpdateErrorMsg, []) ∧
      deleteMany (fun _ _ => .ok (.obj [])) "users" (some []) none {} =
        (.error bulkDeleteErrorMsg, [])) :=
  ⟨Or.inr rfl, C2_bulk_without_ids_rejected (fun _ _ => .ok (.obj [])) "users" (some [])
    (.obj []) none {} (Or.inr rfl)⟩

/-- C5 counterexample: getMany with two ids issues exactly one request
— a single list call carrying an in-filter — not two single-record
requests as the claim uniform decomposition would require. -/
theorem C5_counterexample :
    (getMany (fun _ _ => Except.ok (Value.obj [])) true "users" [Value.num 1, Value.num 2]
        none {}).2.length = 1 ∧ (1 : Nat) ≠ 2 := by
  refine ⟨?_, by decide⟩
  simp only [getMany]
  rw [getList_log_length]
  simp +decide [buildGetListVariables, paginationVars, generateFilters, buildFilterInput,
    mapGenerateFilters, validateFiltersBasic, validateFilterBasic, validateBasicSubs,
    validateFieldName, validateOperatorValue, generateFieldFilter, textOperators,
    isEmptyTextValue, containsDoubleUnderscore, startsWithUnderscore, isSuspiciousChar,
    Value.getProp, Value.truthy, jsSpread2, spreadEntries, buildObj, objInsert, objDelete,
    List.find?, List.foldl, Except.isOk, metaCursorNext, metaCursorPrev,
    validateBasicDynList, validateBasicDynObj, validateFieldNameDyn, checkAllowedOperator,
    checkAllowedOperatorDyn, isNullValue, isEmptyObjectLike, validateFiltersOpts,
    validateFilterOpts, validateOptsSubs, validateOptsDynList, validateOptsDynObj,
    getObjectDepth, getObjectDepthEntries, exceptBindOk, exceptBindError, Except.toBool]

/-- C5 (amended): createMany, and updateMany/deleteMany with a
non-empty explicit ids list, decompose into per-item single-record
calls — the request log is the concatenation of the per-item logs in
input order, and a successful aggregate is exactly the list of the
per-item results in input order — while getMany does not decompose: it
is a single getList call carrying an in-filter on id and issues at
most one request regardless of the number of ids. -/
theorem C5_multi_id_decomposition (client : GqlClient) (envTest : Bool) (resource : String)
    (meta : Option MetaQ) (config : Config) :
    (∀ variablesList : List Value,
      (createMany client resource variablesList meta config).2 =
        (variablesList.map (fun v => (create client resource v meta config).2)).flatten ∧
      ∀ out, (createMany client resource variablesList meta config).1 = .ok out →
        variablesList.map (fun v => (create client resource v meta config).1) =
          out.map Except.ok) ∧
    (∀ (idsL : List Value) (variablesV : Value), idsL ≠ [] →
      (updateMany client resource (some idsL) variablesV meta config).2 =
        (idsL.map (fun i => (update client resource i variablesV meta config).2)).flatten ∧
      ∀ out, (updateMany client resource (some idsL) variablesV meta config).1 = .ok out →
        idsL.map (fun i => (update client resource i variablesV meta config).1) =
          out.map Except.ok) ∧
    (∀ idsL : List Value, idsL ≠ [] →
      (deleteMany client resource (some idsL) meta config).2 =
        (idsL.map (fun i => (deleteOne client resource i meta config).2)).flatten ∧
      ∀ out, (deleteMany client resource (some idsL) meta config).1 = .ok out →
        idsL.map (fun i => (deleteOne client resource i meta config).1) =
          out.map Except.ok) ∧
    (∀ ids : List Value,
      getMany client envTest resource ids meta config =
        (let r := getList client envTest resource
            (some { currentPage := some 1, pageSize := some (ids.length : Int) })
            none (some [CrudFilter.fieldF "id" "in" (.arr ids)]) meta config
         (r.1.map GetListResult.data, r.2)) ∧
      (getMany client envTest resource ids meta config).2.length ≤ 1) := by
  refine ⟨?_, ?_, ?_, ?_⟩
  · intro variablesList
    constructor
    · simp [createMany, List.map_map, Function.comp_def]
    · intro out hok
      simp only [createMany, List.map_map] at hok
      have := seqExcept_ok hok
      simpa [List.map_map, Function.comp_def] using this
  · intro idsL variablesV hne
    have hpos : idsL.length > 0 := List.length_pos.mpr hne
    constructor
    · simp [updateMany, if_pos hpos, List.map_map, Function.comp_def]
    · intro out hok
      simp only [updateMany, if_pos hpos, List.map_map] at hok
      have := seqExcept_ok hok
      simpa [List.map_map, Function.comp_def] using this
  · intro idsL hne
    have hpos : idsL.length > 0 := List.length_pos.mpr hne
    constructor
    · simp [deleteMany, if_pos hpos, List.map_map, Function.comp_def]
    · intro out hok
      simp only [deleteMany, if_pos hpos, List.map_map] at hok
      have := seqExcept_ok hok
      simpa [List.map_map, Function.comp_def] using this
  · intro ids
    refine ⟨rfl, ?_⟩
    simp only [getMany]
    rw [getList_log_length]
    split <;> decide

theorem C5_witness :
    ([Value.num 1] ≠ ([] : List Value)) ∧
    (updateMany (fun _ _ => .ok (.obj [])) "users" (some [Value.num 1]) (.obj []) none {}).2 =
      ([Value.num 1].map (fun i =>
        (update (fun _ _ => .ok (.obj [])) "users" i (.obj []) none {}).2)).flatten :=
  ⟨by simp, ((C5_multi_id_decomposition (fun _ _ => .ok (.obj [])) true "users" none
    {}).2.1 [Value.num 1] (.obj []) (by simp)).1⟩

end RefinePG
